import Mathlib

/-! Verification of canvas-game-bootstrap: the update / collision / lifecycle
engine of `js/app.js`.

A shallow embedding of the simulation core of `src/js/app.js`.

* JavaScript numbers that hold coordinates, sizes and times are rationals
  (`ℚ`): the properties below are about comparisons and branch structure, not
  about rounding.  Timestamps returned by `Date.now()` are integers.
* JavaScript arrays are lists; an array read `a[i]` outside `0 ≤ i < a.length`
  yields `undefined`, and a property read on `undefined` throws a `TypeError`.
  Loop counters are integers (`Int`) because `i--` can make them negative.
* The free-standing mutable variables of the module (`player`, `bullets`,
  `enemies`, `explosions`, `lastFire`, `gameTime`, `isGameOver`) form one
  record `GameState` that every operation takes and returns.
* The DOM visibility toggles of `reset` and `gameOver` are user-interface
  signals outside the simulated state and are not modelled.
-/

namespace CanvasGame

/-! ## Outcomes of running a piece of code -/

/-- Result of running a loop or a function of the program: normal completion
with a value, a thrown `TypeError` (a property read on `undefined`), or the
exhaustion of the iteration budget of the model. -/
inductive Outcome (α : Type) where
  | ok (a : α)
  | typeError
  | fuelOut
  deriving DecidableEq, Repr

/-! ## JavaScript array primitives -/

/-- Array read `xs[i]` with an integer index: `none` stands for `undefined`,
which is what a negative or past-the-end index yields. -/
def jsGet {α : Type} (xs : List α) (i : Int) : Option α :=
  if 0 ≤ i then xs[i.toNat]? else none

/-- The start position that `Array.prototype.splice` derives from its first
argument: a negative `start` counts from the end, and the result is clamped
to `[0, length]`. -/
def spliceStart (len : Nat) (start : Int) : Nat :=
  if start < 0 then ((len : Int) + start).toNat else min start.toNat len

/-- Call `xs.splice(start, 1)`: removes at most one element, at the position
given by `spliceStart`. -/
def splice1 {α : Type} (xs : List α) (start : Int) : List α :=
  xs.eraseIdx (spliceStart xs.length start)

/-! ## Sprites (external primitive `./sprite`) -/

/-- Animation state of a sprite.  The constructor arguments used by `app.js`
are the sheet offset `pos`, the frame `size`, the `speed`, the frame sequence
`frames` and the non-looping flag `once`; `index` is the animation phase and
`done` the finished flag. -/
structure Sprite where
  pos : ℚ × ℚ
  size : ℚ × ℚ
  speed : ℚ
  frames : List Nat
  index : ℚ
  once : Bool
  done : Bool
  deriving DecidableEq, Repr

/-- Modelled from the spec: the sprite primitive (`./sprite`) is not part of
the sources.  Its `advance(dt)` moves the animation phase forward by
`speed * dt`; the frame size is immutable, and the finished flag of a
non-looping sequence is raised once the phase has run past the last frame. -/
def Sprite.update (s : Sprite) (dt : ℚ) : Sprite :=
  { s with
    index := s.index + s.speed * dt
    done := s.done || (s.once && decide ((s.frames.length : ℚ) ≤ s.index + s.speed * dt)) }

/-- Sprite constructor `new Sprite(url, pos, size, speed, frames, dir, once)`;
`speed` defaults to `0` and the phase starts at `0`. -/
def Sprite.new (pos size : ℚ × ℚ) (speed : ℚ) (frames : List Nat) (once : Bool) : Sprite :=
  { pos := pos, size := size, speed := speed, frames := frames, index := 0,
    once := once, done := false }

/-! ## Game state -/

/-- The player record: position, declared display box and sprite. -/
structure Player where
  pos : ℚ × ℚ
  sizeX : ℚ
  sizeY : ℚ
  sprite : Sprite
  deriving DecidableEq, Repr

/-- A bullet: only a position. -/
structure Bullet where
  pos : ℚ × ℚ
  deriving DecidableEq, Repr

/-- An enemy: position and its own sprite. -/
structure Enemy where
  pos : ℚ × ℚ
  sprite : Sprite
  deriving DecidableEq, Repr

/-- An explosion: position and its own non-looping sprite. -/
structure Explosion where
  pos : ℚ × ℚ
  sprite : Sprite
  deriving DecidableEq, Repr

/-- The module-level mutable state of `app.js`. -/
structure GameState where
  player : Player
  bullets : List Bullet
  enemies : List Enemy
  explosions : List Explosion
  lastFire : Int
  gameTime : ℚ
  isGameOver : Bool
  deriving DecidableEq, Repr

/-- Width of the canvas (`canvas.width = 512`). -/
def canvasWidth : ℚ := 512

/-- Height of the canvas (`canvas.height = 480`). -/
def canvasHeight : ℚ := 480

/-- Player speed in pixels per second. -/
def playerSpeed : ℚ := 200

/-- Bullet speed in pixels per second. -/
def bulletSpeed : ℚ := 500

/-- Enemy speed in pixels per second. -/
def enemySpeed : ℚ := 100

/-- The sprite shared by all bullets:
`new Sprite('img/sprites.png', [0, 39], [18, 8])`. -/
def bulletSprite : Sprite := Sprite.new (0, 39) (18, 8) 0 [] false

/-- The sprite of the player as constructed at start-up:
`new Sprite('img/sprites.png', [0, 0], [39, 39], 16, [0, 1])`. -/
def playerSprite : Sprite := Sprite.new (0, 0) (39, 39) 16 [0, 1] false

/-- The sprite given to a spawned enemy:
`new Sprite('img/sprites.png', [0, 78], [80, 39], 6, [0, 1, 2, 3, 2, 1])`. -/
def enemySprite : Sprite := Sprite.new (0, 78) (80, 39) 6 [0, 1, 2, 3, 2, 1] false

/-- The sprite given to a new explosion: thirteen frames, non-looping. -/
def explosionSprite : Sprite :=
  Sprite.new (0, 117) (39, 39) 16 [0, 1, 2, 3, 4, 5, 6, 7, 8, 9, 10, 11, 12] true

/-! ## Lifecycle -/

/-- Function `reset()`: back to the playing state. -/
def reset (st : GameState) : GameState :=
  { st with
    isGameOver := false
    gameTime := 0
    enemies := []
    bullets := []
    player := { st.player with pos := (50, canvasHeight / 2) } }

/-- Function `gameOver()`: raise the game-over flag. -/
def gameOver (st : GameState) : GameState :=
  { st with isGameOver := true }

/-! ## Collision predicate -/

/-- Function `collides(x, y, r, b, x2, y2, r2, b2)`. -/
def collides (x y r b x2 y2 r2 b2 : ℚ) : Bool :=
  !(decide (r ≤ x2) || decide (x > r2) || decide (b ≤ y2) || decide (y > b2))

/-- Function `boxCollides(pos, size, pos2, size2)`. -/
def boxCollides (pos size pos2 size2 : ℚ × ℚ) : Bool :=
  collides pos.1 pos.2 (pos.1 + size.1) (pos.2 + size.2)
    pos2.1 pos2.2 (pos2.1 + size2.1) (pos2.2 + size2.2)

/-! ## Collision resolution -/

/-- The inner `for` loop of `checkCollisions` (over `j`), run for the enemy
whose position and size were read into `pos` and `size`.  On a hit the bullet
at `j` and the element of `enemies` at the current `i` are spliced out, both
counters are decremented and an explosion is pushed at `pos`; the scan then
goes on (`j--` followed by the loop's `j++`).  Returns the outer counter `i`
together with the state. -/
def collideBullets (pos size : ℚ × ℚ) : Nat → Int → Int → GameState → Outcome (Int × GameState)
  | 0, _, _, _ => .fuelOut
  | k + 1, i, j, st =>
    if j < (st.bullets.length : Int) then
      match jsGet st.bullets j with
      | none => .typeError
      | some b =>
        if boxCollides pos size b.pos bulletSprite.size then
          collideBullets pos size k (i - 1) (j - 1 + 1)
            { st with
              bullets := splice1 st.bullets j
              enemies := splice1 st.enemies i
              explosions := st.explosions ++ [{ pos := pos, sprite := explosionSprite }] }
        else
          collideBullets pos size k i (j + 1) st
    else .ok (i, st)

/-- The outer `for` loop of `checkCollisions` (over `i`): read `enemies[i]`,
run the bullet scan, then test the saved `pos` and `size` against the player
and call `gameOver()` on overlap. -/
def collideEnemies : Nat → Int → GameState → Outcome GameState
  | 0, _, _ => .fuelOut
  | k + 1, i, st =>
    if i < (st.enemies.length : Int) then
      match jsGet st.enemies i with
      | none => .typeError
      | some e =>
        match collideBullets e.pos e.sprite.size (st.bullets.length + 1) i 0 st with
        | .ok (i1, st1) =>
          collideEnemies k (i1 + 1)
            (if boxCollides e.pos e.sprite.size st1.player.pos st1.player.sprite.size
              then gameOver st1 else st1)
        | .typeError => .typeError
        | .fuelOut => .fuelOut
    else .ok st

/-- Function `checkCollisions()`.  The iteration budget
`enemies.length + 2 * bullets.length + 1` is never exhausted
(`checkCollisions_ne_fuelOut`). -/
def checkCollisions (st : GameState) : Outcome GameState :=
  collideEnemies (st.enemies.length + 2 * st.bullets.length + 1) 0 st

/-! ## Simulation step -/

/-- Key names understood by the input service. -/
inductive Key where
  | UP | DOWN | LEFT | RIGHT | SPACE | w | a | s | d
  deriving DecidableEq, Repr

/-- What one call of `update` reads from outside the game state: the key
state (`input.isDown`), the two readings of `Date.now()`, the two draws of
`Math.random()` and the function `Math.pow`. -/
structure Env where
  isDown : Key → Bool
  now1 : Int
  now2 : Int
  random1 : ℚ
  random2 : ℚ
  pow : ℚ → ℚ → ℚ

/-- The bullet loop of `update`: move `bullets[i]` right by `bulletSpeed * dt`
and splice it out (with `i--`) when it has passed the canvas width. -/
def updateBullets (dt : ℚ) : Nat → Int → List Bullet → Outcome (List Bullet)
  | 0, _, _ => .fuelOut
  | k + 1, i, bs =>
    if i < (bs.length : Int) then
      match jsGet bs i with
      | none => .typeError
      | some b =>
        let bs1 := bs.set i.toNat { b with pos := (b.pos.1 + bulletSpeed * dt, b.pos.2) }
        match jsGet bs1 i with
        | none => .typeError
        | some b1 =>
          if b1.pos.1 > canvasWidth then updateBullets dt k (i - 1 + 1) (splice1 bs1 i)
          else updateBullets dt k (i + 1) bs1
    else .ok bs

/-- The enemy loop of `update`: move `enemies[i]` left by `enemySpeed * dt`,
advance its sprite, and splice it out (with `i--`) when its right edge is
left of `0`. -/
def updateEnemies (dt : ℚ) : Nat → Int → List Enemy → Outcome (List Enemy)
  | 0, _, _ => .fuelOut
  | k + 1, i, es =>
    if i < (es.length : Int) then
      match jsGet es i with
      | none => .typeError
      | some e =>
        let es1 := es.set i.toNat
          { e with pos := (e.pos.1 - enemySpeed * dt, e.pos.2), sprite := e.sprite.update dt }
        match jsGet es1 i with
        | none => .typeError
        | some e1 =>
          if e1.pos.1 + e1.sprite.size.1 < 0 then updateEnemies dt k (i - 1 + 1) (splice1 es1 i)
          else updateEnemies dt k (i + 1) es1
    else .ok es

/-- The explosion loop of `update`: advance the sprite of `explosions[i]` and
splice the explosion out (with `i--`) when the sprite reports `done`. -/
def updateExplosions (dt : ℚ) : Nat → Int → List Explosion → Outcome (List Explosion)
  | 0, _, _ => .fuelOut
  | k + 1, i, xs =>
    if i < (xs.length : Int) then
      match jsGet xs i with
      | none => .typeError
      | some x =>
        let xs1 := xs.set i.toNat { x with sprite := x.sprite.update dt }
        match jsGet xs1 i with
        | none => .typeError
        | some x1 =>
          if x1.sprite.done then updateExplosions dt k (i - 1 + 1) (splice1 xs1 i)
          else updateExplosions dt k (i + 1) xs1
    else .ok xs

/-- Lines 78-92 of `update`: the four independent direction checks. -/
def movePlayer (env : Env) (dt : ℚ) (p : ℚ × ℚ) : ℚ × ℚ :=
  let p := if env.isDown .DOWN || env.isDown .s then (p.1, p.2 + playerSpeed * dt) else p
  let p := if env.isDown .UP || env.isDown .w then (p.1, p.2 - playerSpeed * dt) else p
  let p := if env.isDown .LEFT || env.isDown .a then (p.1 - playerSpeed * dt, p.2) else p
  if env.isDown .RIGHT || env.isDown .d then (p.1 + playerSpeed * dt, p.2) else p

/-- Lines 94-102 of `update`: the rate-limited fire input. -/
def fire (env : Env) (st : GameState) : GameState :=
  if env.isDown .SPACE then
    if !st.isGameOver && decide (env.now1 - st.lastFire > 100) then
      { st with
        bullets := st.bullets ++
          [{ pos := (st.player.pos.1 + st.player.sprite.size.1 / 2,
                     st.player.pos.2 + st.player.sprite.size.2 / 2) }]
        lastFire := env.now2 }
    else st
  else st

/-- Lines 104-117 of `update`: the bounds check on the player position, with
the sprite size `size` of the player. -/
def checkBounds (size p : ℚ × ℚ) : ℚ × ℚ :=
  let p := if p.1 < 0 then (0, p.2)
    else if p.1 > canvasWidth - size.1 then (canvasWidth - size.1, p.2) else p
  if p.2 < 0 then (p.1, 0)
  else if p.2 > canvasHeight - size.2 then (p.1, canvasHeight - size.2) else p

/-- Lines 153-162 of `update`: the spawner. -/
def spawn (env : Env) (gameTime : ℚ) (es : List Enemy) : List Enemy :=
  if env.random1 < 1 - env.pow (993 / 1000) gameTime then
    es ++ [{ pos := (canvasWidth, env.random2 * (canvasHeight - 39)), sprite := enemySprite }]
  else es

/-- Function `update(dt)`. -/
def update (env : Env) (dt : ℚ) (st : GameState) : Outcome GameState :=
  let st := { st with gameTime := st.gameTime + dt }
  let st := { st with player := { st.player with pos := movePlayer env dt st.player.pos } }
  let st := fire env st
  let st := { st with
    player := { st.player with pos := checkBounds st.player.sprite.size st.player.pos } }
  let st := { st with player := { st.player with sprite := st.player.sprite.update dt } }
  match updateBullets dt (st.bullets.length + 1) 0 st.bullets with
  | .typeError => .typeError
  | .fuelOut => .fuelOut
  | .ok bs =>
    match updateEnemies dt (st.enemies.length + 1) 0 st.enemies with
    | .typeError => .typeError
    | .fuelOut => .fuelOut
    | .ok es =>
      match updateExplosions dt (st.explosions.length + 1) 0 st.explosions with
      | .typeError => .typeError
      | .fuelOut => .fuelOut
      | .ok xs =>
        checkCollisions
          { st with bullets := bs, enemies := spawn env st.gameTime es, explosions := xs }

/-! ## Sample data -/

/-- An enemy with the spawner's sprite at a given position. -/
def enemyAt (x y : ℚ) : Enemy := { pos := (x, y), sprite := enemySprite }

/-- A bullet at a given position. -/
def bulletAt (x y : ℚ) : Bullet := { pos := (x, y) }

/-- The player as created at start-up and placed at a given position. -/
def playerAt (x y : ℚ) : Player :=
  { pos := (x, y), sizeX := 100, sizeY := 100, sprite := playerSprite }

/-- A playing state with the given player position, bullets and enemies. -/
def mkState (px py : ℚ) (bs : List Bullet) (es : List Enemy) : GameState :=
  { player := playerAt px py, bullets := bs, enemies := es, explosions := [],
    lastFire := 0, gameTime := 0, isGameOver := false }

/-- An environment with no key held, the clock at `0`, both random draws `0`,
and a power function that is `1` at exponent `0` (integer part of the
exponent otherwise). -/
def idleEnv : Env :=
  { isDown := fun _ => false, now1 := 0, now2 := 0, random1 := 0, random2 := 0,
    pow := fun b e => b ^ (Int.toNat (Int.floor e)) }

/-! ## The scans as the specification words them -/

/-- Specification of the bullet scan: advance every bullet's x-position by
`bulletSpeed * dt`, then keep, in order, the bullets whose x does not exceed
the canvas width. -/
def advanceBullets (dt : ℚ) (bs : List Bullet) : List Bullet :=
  (bs.map fun b => { b with pos := (b.pos.1 + bulletSpeed * dt, b.pos.2) }).filter
    fun b => decide (b.pos.1 ≤ canvasWidth)

/-- Specification of the enemy scan: move every enemy left by
`enemySpeed * dt` and advance its sprite once, then keep, in order, the
enemies whose right edge is not left of `0`. -/
def advanceEnemies (dt : ℚ) (es : List Enemy) : List Enemy :=
  (es.map fun e =>
    { e with pos := (e.pos.1 - enemySpeed * dt, e.pos.2), sprite := e.sprite.update dt }).filter
    fun e => decide (0 ≤ e.pos.1 + e.sprite.size.1)

/-- Specification of the explosion scan: advance every explosion's sprite
once, then keep, in order, the explosions whose sprite is not finished. -/
def advanceExplosions (dt : ℚ) (xs : List Explosion) : List Explosion :=
  (xs.map fun x => { x with sprite := x.sprite.update dt }).filter fun x => !x.sprite.done

/-- The state that `update` hands to `checkCollisions`, with the three scans
replaced by their specifications (`update_eq_checkCollisions`). -/
def beforeCollisions (env : Env) (dt : ℚ) (st : GameState) : GameState :=
  let st0 := fire env
    { st with
      gameTime := st.gameTime + dt
      player := { st.player with pos := movePlayer env dt st.player.pos } }
  { st0 with
    player :=
      { st0.player with
        pos := checkBounds st0.player.sprite.size st0.player.pos
        sprite := st0.player.sprite.update dt }
    bullets := advanceBullets dt st0.bullets
    enemies := spawn env st0.gameTime (advanceEnemies dt st0.enemies)
    explosions := advanceExplosions dt st0.explosions }

/-- The frame driver's sequence of simulation steps: `update` is called once
per frame with that frame's environment and `dt`; a throw ends the run. -/
def runUpdates : List (Env × ℚ) → GameState → Outcome GameState
  | [], st => .ok st
  | (env, dt) :: rest, st =>
    match update env dt st with
    | .ok st1 => runUpdates rest st1
    | .typeError => .typeError
    | .fuelOut => .fuelOut

/-- A state with its lifecycle flag replaced. -/
def withFlag (g : Bool) (st : GameState) : GameState :=
  { st with isGameOver := g }

/-- Apply a function to the value of a completed run. -/
def Outcome.map {α β : Type} (f : α → β) : Outcome α → Outcome β
  | .ok a => .ok (f a)
  | .typeError => .typeError
  | .fuelOut => .fuelOut

/-- An environment in which only SPACE is held and both clock readings are
`now`; random draws and power function as in `idleEnv`. -/
def spaceEnv (now : Int) : Env :=
  { idleEnv with isDown := fun k => decide (k = Key.SPACE), now1 := now, now2 := now }

/-! ## Array primitives at natural-number indices -/

section ArrayLemmas

variable {α : Type}

theorem jsGet_natCast (xs : List α) (n : Nat) : jsGet xs (n : Int) = xs[n]? := by
  simp [jsGet]

theorem jsGet_neg (xs : List α) (i : Int) (h : i < 0) : jsGet xs i = none := by
  simp [jsGet, not_le.mpr h]

theorem jsGet_mem {xs : List α} {i : Int} {x : α} (h : jsGet xs i = some x) : x ∈ xs := by
  unfold jsGet at h
  split at h
  · exact List.getElem?_mem h
  · cases h

theorem splice1_natCast (xs : List α) (n : Nat) : splice1 xs (n : Int) = xs.eraseIdx n := by
  unfold splice1 spliceStart
  have h0 : ¬ ((n : Int) < 0) := by omega
  rw [if_neg h0, Int.toNat_ofNat]
  rcases Nat.lt_or_ge n xs.length with h | h
  · rw [Nat.min_eq_left h.le]
  · rw [Nat.min_eq_right h, List.eraseIdx_of_length_le (le_refl _), List.eraseIdx_of_length_le h]

theorem splice1_length_le (xs : List α) (i : Int) : (splice1 xs i).length ≤ xs.length := by
  unfold splice1
  rw [List.length_eraseIdx]
  split <;> omega

theorem splice1_subset (xs : List α) (i : Int) : ∀ x ∈ splice1 xs i, x ∈ xs := by
  intro x hx
  exact (List.eraseIdx_sublist xs _).subset hx

theorem drop_eraseIdx_self (xs : List α) (n : Nat) :
    (xs.eraseIdx n).drop n = xs.drop (n + 1) := by
  induction xs generalizing n with
  | nil => simp
  | cons x xs ih =>
    cases n with
    | zero => simp
    | succ n => simpa using ih n

end ArrayLemmas

/-! ## Invariants of the collision loops -/

theorem drop_splice1_self {α : Type} (xs : List α) (i : Int) (h : 0 ≤ i) :
    (splice1 xs i).drop i.toNat = xs.drop (i + 1).toNat := by
  obtain ⟨n, rfl⟩ := Int.eq_ofNat_of_zero_le h
  rw [splice1_natCast]
  have h1 : ((n : Int) + 1).toNat = n + 1 := by omega
  rw [Int.toNat_ofNat, h1, drop_eraseIdx_self]

/-- What every completed bullet scan preserves: the player, the lifecycle
flag, the clocks; the outer counter only goes down, the enemies only shrink,
and the not yet visited enemies (those from position `i + 1` on) are kept. -/
theorem collideBullets_inv (pos size : ℚ × ℚ) :
    ∀ (k : Nat) (i j : Int) (st : GameState) (i1 : Int) (st1 : GameState),
      collideBullets pos size k i j st = .ok (i1, st1) →
      st1.player = st.player ∧ st1.isGameOver = st.isGameOver ∧
      st1.gameTime = st.gameTime ∧ st1.lastFire = st.lastFire ∧ i1 ≤ i ∧
      (∀ e ∈ st1.enemies, e ∈ st.enemies) ∧
      (0 ≤ i1 + 1 → st1.enemies.drop (i1 + 1).toNat = st.enemies.drop (i + 1).toNat) := by
  intro k
  induction k with
  | zero => intro i j st i1 st1 h; simp [collideBullets] at h
  | succ k ih =>
    intro i j st i1 st1 h
    simp only [collideBullets] at h
    split at h
    · split at h
      · cases h
      · split at h
        · obtain ⟨hp, hg, ht, hl, hi, hm, hd⟩ := ih _ _ _ _ _ h
          refine ⟨hp, hg, ht, hl, by omega, ?_, ?_⟩
          · intro e he
            exact splice1_subset _ _ e (hm e he)
          · intro h0
            have h1 := hd h0
            simp only at h1
            have hi0 : 0 ≤ i := by omega
            have h2 : (i - 1 + 1).toNat = i.toNat := by congr 1; omega
            rw [h2, drop_splice1_self _ _ hi0] at h1
            exact h1
        · exact ih _ _ _ _ _ h
    · simp only [Outcome.ok.injEq, Prod.mk.injEq] at h
      obtain ⟨rfl, rfl⟩ := h
      simp

/-- The bullet scan always completes when its budget exceeds the number of
bullets still to scan; each hit lowers the bullet count and the outer counter
by one, and the enemy list never grows. -/
theorem collideBullets_fuel (pos size : ℚ × ℚ) :
    ∀ (k : Nat) (i : Int) (n : Nat) (st : GameState), st.bullets.length - n < k →
      ∃ i1 st1, collideBullets pos size k i (n : Int) st = .ok (i1, st1) ∧
        st1.enemies.length ≤ st.enemies.length ∧ i1 ≤ i ∧
        (st1.bullets.length : Int) + (i - i1) = (st.bullets.length : Int) := by
  intro k
  induction k with
  | zero => intro i n st h; omega
  | succ k ih =>
    intro i n st h
    simp only [collideBullets]
    by_cases hn : n < st.bullets.length
    · have hn1 : (n : Int) < (st.bullets.length : Int) := by exact_mod_cast hn
      rw [if_pos hn1, jsGet_natCast, List.getElem?_eq_getElem hn]
      simp only
      have hj : ((n : Int) - 1 + 1) = (n : Int) := by omega
      split
      · rw [hj]
        obtain ⟨i1, st1, h1, h2, h3, h4⟩ := ih (i - 1) n
          { st with
            bullets := splice1 st.bullets n
            enemies := splice1 st.enemies i
            explosions := st.explosions ++ [{ pos := pos, sprite := explosionSprite }] }
          (by simp only [splice1_natCast, List.length_eraseIdx, if_pos hn]; omega)
        refine ⟨i1, st1, h1, ?_, by omega, ?_⟩
        · exact le_trans h2 (splice1_length_le _ _)
        · simp only [splice1_natCast, List.length_eraseIdx, if_pos hn] at h4
          omega
      · have hj1 : ((n : Int) + 1) = ((n + 1 : Nat) : Int) := by push_cast; rfl
        rw [hj1]
        exact ih i (n + 1) st (by omega)
    · have hn1 : ¬ ((n : Int) < (st.bullets.length : Int)) := by
        intro hc; exact hn (by exact_mod_cast hc)
      rw [if_neg hn1]
      exact ⟨i, st, rfl, le_refl _, le_refl _, by omega⟩

/-- The outer loop never runs out of budget when the budget exceeds
`(enemies.length - i) + 2 * bullets.length`. -/
theorem collideEnemies_ne_fuelOut :
    ∀ (k : Nat) (i : Int) (st : GameState),
      ((st.enemies.length : Int) - i).toNat + 2 * st.bullets.length < k →
      collideEnemies k i st ≠ .fuelOut := by
  intro k
  induction k with
  | zero => intro i st h; omega
  | succ k ih =>
    intro i st h
    simp only [collideEnemies]
    split
    · next hi =>
      split
      · simp
      · next e _ =>
        obtain ⟨i1, st1, h1, h2, h3, h4⟩ :=
          collideBullets_fuel e.pos e.sprite.size (st.bullets.length + 1) i 0 st (by omega)
        simp only [Nat.cast_zero] at h1
        rw [h1]
        simp only
        apply ih
        have hb : (if boxCollides e.pos e.sprite.size st1.player.pos st1.player.sprite.size
            then gameOver st1 else st1).bullets = st1.bullets := by split <;> rfl
        have he : (if boxCollides e.pos e.sprite.size st1.player.pos st1.player.sprite.size
            then gameOver st1 else st1).enemies = st1.enemies := by split <;> rfl
        rw [hb, he]
        omega
    · simp

/-- Function `checkCollisions` never exhausts its iteration budget: it either
completes or throws. -/
theorem checkCollisions_ne_fuelOut (st : GameState) : checkCollisions st ≠ .fuelOut := by
  unfold checkCollisions
  apply collideEnemies_ne_fuelOut
  simp

theorem drop_of_getElem? {α : Type} {xs : List α} {n : Nat} {x : α} (h : xs[n]? = some x) :
    xs.drop n = x :: xs.drop (n + 1) := by
  obtain ⟨hn, rfl⟩ := List.getElem?_eq_some.mp h
  exact List.drop_eq_getElem_cons hn

/-- State after the player test of one outer iteration. -/
theorem playerTest_fields (c : Bool) (st : GameState) :
    (if c then gameOver st else st).player = st.player ∧
    (if c then gameOver st else st).bullets = st.bullets ∧
    (if c then gameOver st else st).enemies = st.enemies ∧
    (if c then gameOver st else st).explosions = st.explosions ∧
    (if c then gameOver st else st).gameTime = st.gameTime ∧
    (if c then gameOver st else st).lastFire = st.lastFire ∧
    (if c then gameOver st else st).isGameOver = (c || st.isGameOver) := by
  cases c <;> simp [gameOver]

/-- A negative counter at the head of the outer loop never leads to normal
completion: `enemies[i]` is `undefined` there. -/
theorem collideEnemies_neg (k : Nat) (i : Int) (st st1 : GameState) (h : i < 0) :
    collideEnemies k i st ≠ .ok st1 := by
  cases k with
  | zero => simp [collideEnemies]
  | succ k =>
    have h1 : i < (st.enemies.length : Int) := by omega
    simp [collideEnemies, h1, jsGet_neg _ _ h]

/-- What every completed collision pass preserves: the player and the clocks;
the lifecycle flag is never lowered and no enemy is created. -/
theorem collideEnemies_inv :
    ∀ (k : Nat) (i : Int) (st st1 : GameState), collideEnemies k i st = .ok st1 →
      st1.player = st.player ∧ st1.gameTime = st.gameTime ∧ st1.lastFire = st.lastFire ∧
      (st.isGameOver = true → st1.isGameOver = true) ∧
      (∀ e ∈ st1.enemies, e ∈ st.enemies) := by
  intro k
  induction k with
  | zero => intro i st st1 h; simp [collideEnemies] at h
  | succ k ih =>
    intro i st st1 h
    simp only [collideEnemies] at h
    split at h
    · split at h
      · cases h
      · next e _ =>
        split at h
        · next i2 st2 hb =>
          obtain ⟨hp, hg, ht, hl, -, hm, -⟩ := collideBullets_inv _ _ _ _ _ _ _ _ hb
          obtain ⟨hp1, ht1, hl1, hg1, hm1⟩ := ih _ _ _ h
          obtain ⟨fp, -, fe, -, ft, fl, fg⟩ :=
            playerTest_fields
              (boxCollides e.pos e.sprite.size st2.player.pos st2.player.sprite.size) st2
          rw [fp] at hp1
          rw [ft] at ht1
          rw [fl] at hl1
          rw [fg] at hg1
          rw [fe] at hm1
          refine ⟨hp1.trans hp, ht1.trans ht, hl1.trans hl, ?_, ?_⟩
          · intro h0
            apply hg1
            rw [hg, h0]
            simp
          · intro x hx
            exact hm x (hm1 x hx)
        · cases h
        · cases h
    · cases h
      simp

/-- The player test of a completed pass is only ever run on enemies of the
list the pass started with. -/
theorem collideEnemies_flag_source :
    ∀ (k : Nat) (i : Int) (st st1 : GameState), collideEnemies k i st = .ok st1 →
      st1.isGameOver = true →
      st.isGameOver = true ∨
        ∃ e ∈ st.enemies,
          boxCollides e.pos e.sprite.size st.player.pos st.player.sprite.size = true := by
  intro k
  induction k with
  | zero => intro i st st1 h; simp [collideEnemies] at h
  | succ k ih =>
    intro i st st1 h hg1
    simp only [collideEnemies] at h
    split at h
    · split at h
      · cases h
      · next e he =>
        split at h
        · next i2 st2 hb =>
          obtain ⟨hp, hg, -, -, -, hm, -⟩ := collideBullets_inv _ _ _ _ _ _ _ _ hb
          obtain ⟨fp, -, fe, -, -, -, fg⟩ :=
            playerTest_fields
              (boxCollides e.pos e.sprite.size st2.player.pos st2.player.sprite.size) st2
          rcases ih _ _ _ h hg1 with h1 | ⟨x, hx, hxc⟩
          · rw [fg, Bool.or_eq_true] at h1
            rcases h1 with h1 | h1
            · right
              refine ⟨e, jsGet_mem he, ?_⟩
              rw [← hp]
              exact h1
            · left
              rw [← hg]
              exact h1
          · right
            rw [fe] at hx
            rw [fp, hp] at hxc
            exact ⟨x, hm x hx, hxc⟩
        · cases h
        · cases h
    · cases h
      exact Or.inl hg1

/-- Every enemy not yet visited when the outer loop is at counter `i` is
tested against the player before the pass completes. -/
theorem collideEnemies_flag_raised :
    ∀ (k : Nat) (i : Int) (st st1 : GameState), collideEnemies k i st = .ok st1 → 0 ≤ i →
      (∃ e ∈ st.enemies.drop i.toNat,
        boxCollides e.pos e.sprite.size st.player.pos st.player.sprite.size = true) →
      st1.isGameOver = true := by
  intro k
  induction k with
  | zero => intro i st st1 h; simp [collideEnemies] at h
  | succ k ih =>
    intro i st st1 h hi hex
    obtain ⟨x, hx, hxc⟩ := hex
    simp only [collideEnemies] at h
    split at h
    · split at h
      · cases h
      · next e he =>
        split at h
        · next i2 st2 hb =>
          obtain ⟨hp, hg, -, -, -, -, hd⟩ := collideBullets_inv _ _ _ _ _ _ _ _ hb
          obtain ⟨fp, -, fe, -, -, -, fg⟩ :=
            playerTest_fields
              (boxCollides e.pos e.sprite.size st2.player.pos st2.player.sprite.size) st2
          obtain ⟨n, rfl⟩ := Int.eq_ofNat_of_zero_le hi
          rw [jsGet_natCast] at he
          rw [Int.toNat_ofNat, drop_of_getElem? he, List.mem_cons] at hx
          rcases hx with rfl | hx
          · refine (collideEnemies_inv _ _ _ _ h).2.2.2.1 ?_
            rw [fg, hp, hxc]
            rfl
          · have h0 : 0 ≤ i2 + 1 := by
              by_contra hc
              exact collideEnemies_neg _ _ _ _ (not_le.mp hc) h
            have h1 := hd h0
            have h2 : ((n : Int) + 1).toNat = n + 1 := by omega
            rw [h2] at h1
            refine ih _ _ _ h h0 ⟨x, ?_, ?_⟩
            · rw [fe, h1]
              exact hx
            · rw [fp, hp]
              exact hxc
        · cases h
        · cases h
    · next hlt =>
      obtain ⟨n, rfl⟩ := Int.eq_ofNat_of_zero_le hi
      have hn : st.enemies.length ≤ n := by
        by_contra hc
        exact hlt (by exact_mod_cast not_le.mp hc)
      rw [Int.toNat_ofNat, List.drop_eq_nil_of_le hn] at hx
      cases hx

/-! ## Scans without a hit, and a single hit -/

theorem playerTest_eq (c : Bool) (st : GameState) :
    (if c then gameOver st else st) = { st with isGameOver := c || st.isGameOver } := by
  cases c <;> rfl

/-- One iteration of the bullet scan on a bullet that does not overlap. -/
theorem collideBullets_step_miss (pos size : ℚ × ℚ) (k : Nat) (i : Int) (n : Nat)
    (st : GameState) (bl : Bullet) (hb : st.bullets[n]? = some bl)
    (hc : boxCollides pos size bl.pos bulletSprite.size = false) :
    collideBullets pos size (k + 1) i (n : Int) st
      = collideBullets pos size k i ((n + 1 : Nat) : Int) st := by
  obtain ⟨hn, -⟩ := List.getElem?_eq_some.mp hb
  have hn1 : (n : Int) < (st.bullets.length : Int) := by exact_mod_cast hn
  simp only [collideBullets]
  rw [if_pos hn1, jsGet_natCast, hb]
  simp only [hc]
  have hj1 : ((n : Int) + 1) = ((n + 1 : Nat) : Int) := by push_cast; rfl
  rw [← hj1]
  rfl

/-- One iteration of the bullet scan on a bullet that overlaps. -/
theorem collideBullets_step_hit (pos size : ℚ × ℚ) (k : Nat) (i : Int) (n : Nat)
    (st : GameState) (bl : Bullet) (hb : st.bullets[n]? = some bl)
    (hc : boxCollides pos size bl.pos bulletSprite.size = true) :
    collideBullets pos size (k + 1) i (n : Int) st
      = collideBullets pos size k (i - 1) (n : Int)
          { st with
            bullets := st.bullets.eraseIdx n
            enemies := splice1 st.enemies i
            explosions := st.explosions ++ [{ pos := pos, sprite := explosionSprite }] } := by
  obtain ⟨hn, -⟩ := List.getElem?_eq_some.mp hb
  have hn1 : (n : Int) < (st.bullets.length : Int) := by exact_mod_cast hn
  simp only [collideBullets]
  rw [if_pos hn1, jsGet_natCast, hb]
  simp only [hc, if_true]
  have hj : ((n : Int) - 1 + 1) = (n : Int) := by omega
  rw [hj, splice1_natCast]

/-- A bullet scan over bullets none of which overlaps changes nothing. -/
theorem collideBullets_miss (pos size : ℚ × ℚ) :
    ∀ (k : Nat) (i : Int) (n : Nat) (st : GameState), st.bullets.length - n < k →
      (∀ bl ∈ st.bullets.drop n, boxCollides pos size bl.pos bulletSprite.size = false) →
      collideBullets pos size k i (n : Int) st = .ok (i, st) := by
  intro k
  induction k with
  | zero => intro i n st h; omega
  | succ k ih =>
    intro i n st h hall
    by_cases hn : n < st.bullets.length
    · have hb : st.bullets[n]? = some st.bullets[n] := List.getElem?_eq_getElem hn
      have hd := drop_of_getElem? hb
      rw [collideBullets_step_miss pos size k i n st _ hb
        (hall _ (by rw [hd]; exact List.mem_cons_self _ _))]
      apply ih i (n + 1) st (by omega)
      intro bl hbl
      exact hall bl (by rw [hd]; exact List.mem_cons_of_mem _ hbl)
    · have hn1 : ¬ ((n : Int) < (st.bullets.length : Int)) := by
        intro hc; exact hn (by exact_mod_cast hc)
      simp only [collideBullets]
      rw [if_neg hn1]

/-- The bullet scan passes over a run of `d` bullets that do not overlap. -/
theorem collideBullets_skip (pos size : ℚ × ℚ) :
    ∀ (d k : Nat) (i : Int) (n : Nat) (st : GameState), n + d ≤ st.bullets.length →
      (∀ m bl, n ≤ m → m < n + d → st.bullets[m]? = some bl →
        boxCollides pos size bl.pos bulletSprite.size = false) →
      collideBullets pos size (k + d) i (n : Int) st
        = collideBullets pos size k i ((n + d : Nat) : Int) st := by
  intro d
  induction d with
  | zero => intro k i n st _ _; rfl
  | succ d ih =>
    intro k i n st hle hall
    have hn : n < st.bullets.length := by omega
    have hb : st.bullets[n]? = some st.bullets[n] := List.getElem?_eq_getElem hn
    have e1 : k + (d + 1) = (k + d) + 1 := by omega
    have e2 : n + (d + 1) = (n + 1) + d := by omega
    rw [e1, e2, collideBullets_step_miss pos size (k + d) i n st _ hb
      (hall n _ (le_refl _) (by omega) hb)]
    apply ih k i (n + 1) st (by omega)
    intro m bl h1 h2 h3
    exact hall m bl (by omega) (by omega) h3

/-- The bullet scan for an enemy that overlaps exactly the bullet at index
`b`: that bullet and the element of `enemies` at the counter are removed and
one explosion is pushed. -/
theorem collideBullets_single (pos size : ℚ × ℚ) (i : Int) (b : Nat) (st : GameState)
    (bl : Bullet) (hb : st.bullets[b]? = some bl)
    (hc : boxCollides pos size bl.pos bulletSprite.size = true)
    (hall : ∀ m bl1, m ≠ b → st.bullets[m]? = some bl1 →
      boxCollides pos size bl1.pos bulletSprite.size = false) :
    collideBullets pos size (st.bullets.length + 1) i 0 st
      = .ok (i - 1,
          { st with
            bullets := st.bullets.eraseIdx b
            enemies := splice1 st.enemies i
            explosions := st.explosions ++ [{ pos := pos, sprite := explosionSprite }] }) := by
  obtain ⟨hn, -⟩ := List.getElem?_eq_some.mp hb
  have e1 : st.bullets.length + 1 = (st.bullets.length - b + 1) + b := by omega
  have h0 : (0 : Int) = ((0 : Nat) : Int) := rfl
  rw [e1, h0, collideBullets_skip pos size b _ i 0 st (by omega)
    (fun m bl1 _ h2 h3 => hall m bl1 (by omega) h3)]
  rw [Nat.zero_add, collideBullets_step_hit pos size _ i b st bl hb hc]
  apply collideBullets_miss
  · simp only [List.length_eraseIdx, if_pos hn]
    omega
  · intro bl1 hbl1
    simp only [drop_eraseIdx_self] at hbl1
    obtain ⟨m, hm⟩ := List.mem_iff_getElem?.mp hbl1
    rw [List.getElem?_drop] at hm
    exact hall _ bl1 (by omega) hm

/-- One outer iteration on an enemy that overlaps no bullet: only the player
test can change the state. -/
theorem collideEnemies_step_miss (k n : Nat) (st : GameState) (e : Enemy)
    (he : st.enemies[n]? = some e)
    (hall : ∀ bl ∈ st.bullets, boxCollides e.pos e.sprite.size bl.pos bulletSprite.size = false) :
    collideEnemies (k + 1) (n : Int) st
      = collideEnemies k ((n + 1 : Nat) : Int)
          { st with
            isGameOver :=
              boxCollides e.pos e.sprite.size st.player.pos st.player.sprite.size
                || st.isGameOver } := by
  obtain ⟨hn, -⟩ := List.getElem?_eq_some.mp he
  have hn1 : (n : Int) < (st.enemies.length : Int) := by exact_mod_cast hn
  have h0 : (0 : Int) = ((0 : Nat) : Int) := rfl
  simp only [collideEnemies]
  rw [if_pos hn1, jsGet_natCast, he]
  simp only
  rw [h0, collideBullets_miss e.pos e.sprite.size _ (n : Int) 0 st (by omega)
    (by simpa using hall)]
  simp only
  rw [playerTest_eq]
  have hj1 : ((n : Int) + 1) = ((n + 1 : Nat) : Int) := by push_cast; rfl
  rw [hj1]

/-- One outer iteration on an enemy that overlaps exactly the bullet at index
`b`. -/
theorem collideEnemies_step_single (k a b : Nat) (st : GameState) (e : Enemy) (bl : Bullet)
    (he : st.enemies[a]? = some e) (hb : st.bullets[b]? = some bl)
    (hc : boxCollides e.pos e.sprite.size bl.pos bulletSprite.size = true)
    (hall : ∀ m bl1, m ≠ b → st.bullets[m]? = some bl1 →
      boxCollides e.pos e.sprite.size bl1.pos bulletSprite.size = false) :
    collideEnemies (k + 1) (a : Int) st
      = collideEnemies k (a : Int)
          { st with
            bullets := st.bullets.eraseIdx b
            enemies := st.enemies.eraseIdx a
            explosions := st.explosions ++ [{ pos := e.pos, sprite := explosionSprite }]
            isGameOver :=
              boxCollides e.pos e.sprite.size st.player.pos st.player.sprite.size
                || st.isGameOver } := by
  obtain ⟨hn, -⟩ := List.getElem?_eq_some.mp he
  have hn1 : (a : Int) < (st.enemies.length : Int) := by exact_mod_cast hn
  simp only [collideEnemies]
  rw [if_pos hn1, jsGet_natCast, he]
  simp only
  rw [collideBullets_single e.pos e.sprite.size (a : Int) b st bl hb hc hall]
  simp only
  rw [playerTest_eq, splice1_natCast]
  have hj : ((a : Int) - 1 + 1) = (a : Int) := by omega
  rw [hj]

/-- The outer loop over enemies none of which overlaps a bullet completes and
changes at most the lifecycle flag. -/
theorem collideEnemies_miss :
    ∀ (k n : Nat) (st : GameState), st.enemies.length - n < k →
      (∀ e ∈ st.enemies.drop n, ∀ bl ∈ st.bullets,
        boxCollides e.pos e.sprite.size bl.pos bulletSprite.size = false) →
      ∃ g, collideEnemies k (n : Int) st = .ok { st with isGameOver := g } := by
  intro k
  induction k with
  | zero => intro n st h; omega
  | succ k ih =>
    intro n st h hall
    by_cases hn : n < st.enemies.length
    · have he : st.enemies[n]? = some st.enemies[n] := List.getElem?_eq_getElem hn
      have hd := drop_of_getElem? he
      rw [collideEnemies_step_miss k n st _ he
        (hall _ (by rw [hd]; exact List.mem_cons_self _ _))]
      obtain ⟨g, hg⟩ := ih (n + 1)
        { st with
          isGameOver :=
            boxCollides st.enemies[n].pos st.enemies[n].sprite.size st.player.pos
              st.player.sprite.size || st.isGameOver }
        (by simp only; omega)
        (by
          intro e he1
          exact hall e (by rw [hd]; exact List.mem_cons_of_mem _ he1))
      exact ⟨g, hg⟩
    · have hn1 : ¬ ((n : Int) < (st.enemies.length : Int)) := by
        intro hc; exact hn (by exact_mod_cast hc)
      simp only [collideEnemies]
      rw [if_neg hn1]
      exact ⟨st.isGameOver, rfl⟩

/-- The outer loop passes over a run of `d` enemies that overlap no bullet,
changing at most the lifecycle flag. -/
theorem collideEnemies_skip :
    ∀ (d k n : Nat) (st : GameState), n + d ≤ st.enemies.length →
      (∀ m e, n ≤ m → m < n + d → st.enemies[m]? = some e → ∀ bl ∈ st.bullets,
        boxCollides e.pos e.sprite.size bl.pos bulletSprite.size = false) →
      ∃ g, collideEnemies (k + d) (n : Int) st
        = collideEnemies k ((n + d : Nat) : Int) { st with isGameOver := g } := by
  intro d
  induction d with
  | zero => intro k n st _ _; exact ⟨st.isGameOver, rfl⟩
  | succ d ih =>
    intro k n st hle hall
    have hn : n < st.enemies.length := by omega
    have he : st.enemies[n]? = some st.enemies[n] := List.getElem?_eq_getElem hn
    have e1 : k + (d + 1) = (k + d) + 1 := by omega
    have e2 : n + (d + 1) = (n + 1) + d := by omega
    rw [e1, e2, collideEnemies_step_miss (k + d) n st _ he (hall n _ (le_refl _) (by omega) he)]
    obtain ⟨g, hg⟩ := ih k (n + 1)
      { st with
        isGameOver :=
          boxCollides st.enemies[n].pos st.enemies[n].sprite.size st.player.pos
            st.player.sprite.size || st.isGameOver }
      (by simp only; omega)
      (by
        intro m e h1 h2 h3
        exact hall m e (by omega) (by omega) h3)
    exact ⟨g, hg⟩

/-! ## The simulation step: budgets and the player frame -/

/-- The loop `updateBullets` of `update` completes whenever its budget exceeds the
number of elements still to scan. -/
theorem updateBullets_fuel (dt : ℚ) :
    ∀ (k n : Nat) (xs : List Bullet), xs.length - n < k →
      ∃ ys, updateBullets dt k (n : Int) xs = .ok ys := by
  intro k
  induction k with
  | zero => intro n xs h; omega
  | succ k ih =>
    intro n xs h
    simp only [updateBullets]
    by_cases hn : n < xs.length
    · have hn1 : (n : Int) < (xs.length : Int) := by exact_mod_cast hn
      rw [if_pos hn1, jsGet_natCast, List.getElem?_eq_getElem hn]
      simp only
      rw [Int.toNat_ofNat, jsGet_natCast, List.getElem?_set_self hn]
      simp only
      have hj : ((n : Int) - 1 + 1) = (n : Int) := by omega
      have hj1 : ((n : Int) + 1) = ((n + 1 : Nat) : Int) := by push_cast; rfl
      split
      · rw [hj, splice1_natCast]
        apply ih
        simp only [List.length_eraseIdx, List.length_set, if_pos hn]
        omega
      · rw [hj1]
        apply ih
        simp only [List.length_set]
        omega
    · have hn1 : ¬ ((n : Int) < (xs.length : Int)) := by
        intro hc; exact hn (by exact_mod_cast hc)
      rw [if_neg hn1]
      exact ⟨xs, rfl⟩

/-- The loop `updateEnemies` of `update` completes whenever its budget exceeds the
number of elements still to scan. -/
theorem updateEnemies_fuel (dt : ℚ) :
    ∀ (k n : Nat) (xs : List Enemy), xs.length - n < k →
      ∃ ys, updateEnemies dt k (n : Int) xs = .ok ys := by
  intro k
  induction k with
  | zero => intro n xs h; omega
  | succ k ih =>
    intro n xs h
    simp only [updateEnemies]
    by_cases hn : n < xs.length
    · have hn1 : (n : Int) < (xs.length : Int) := by exact_mod_cast hn
      rw [if_pos hn1, jsGet_natCast, List.getElem?_eq_getElem hn]
      simp only
      rw [Int.toNat_ofNat, jsGet_natCast, List.getElem?_set_self hn]
      simp only
      have hj : ((n : Int) - 1 + 1) = (n : Int) := by omega
      have hj1 : ((n : Int) + 1) = ((n + 1 : Nat) : Int) := by push_cast; rfl
      split
      · rw [hj, splice1_natCast]
        apply ih
        simp only [List.length_eraseIdx, List.length_set, if_pos hn]
        omega
      · rw [hj1]
        apply ih
        simp only [List.length_set]
        omega
    · have hn1 : ¬ ((n : Int) < (xs.length : Int)) := by
        intro hc; exact hn (by exact_mod_cast hc)
      rw [if_neg hn1]
      exact ⟨xs, rfl⟩

/-- The loop `updateExplosions` of `update` completes whenever its budget exceeds the
number of elements still to scan. -/
theorem updateExplosions_fuel (dt : ℚ) :
    ∀ (k n : Nat) (xs : List Explosion), xs.length - n < k →
      ∃ ys, updateExplosions dt k (n : Int) xs = .ok ys := by
  intro k
  induction k with
  | zero => intro n xs h; omega
  | succ k ih =>
    intro n xs h
    simp only [updateExplosions]
    by_cases hn : n < xs.length
    · have hn1 : (n : Int) < (xs.length : Int) := by exact_mod_cast hn
      rw [if_pos hn1, jsGet_natCast, List.getElem?_eq_getElem hn]
      simp only
      rw [Int.toNat_ofNat, jsGet_natCast, List.getElem?_set_self hn]
      simp only
      have hj : ((n : Int) - 1 + 1) = (n : Int) := by omega
      have hj1 : ((n : Int) + 1) = ((n + 1 : Nat) : Int) := by push_cast; rfl
      split
      · rw [hj, splice1_natCast]
        apply ih
        simp only [List.length_eraseIdx, List.length_set, if_pos hn]
        omega
      · rw [hj1]
        apply ih
        simp only [List.length_set]
        omega
    · have hn1 : ¬ ((n : Int) < (xs.length : Int)) := by
        intro hc; exact hn (by exact_mod_cast hc)
      rw [if_neg hn1]
      exact ⟨xs, rfl⟩

theorem fire_player (env : Env) (st : GameState) : (fire env st).player = st.player := by
  unfold fire
  split
  · split <;> rfl
  · rfl

/-- Function `update` never exhausts an iteration budget: it either completes
or throws. -/
theorem update_ne_fuelOut (env : Env) (dt : ℚ) (st : GameState) :
    update env dt st ≠ .fuelOut := by
  unfold update
  simp only
  obtain ⟨bs, hbs⟩ := updateBullets_fuel dt _ 0 (fire env
    { st with
      gameTime := st.gameTime + dt
      player := { st.player with pos := movePlayer env dt st.player.pos } }).bullets
    (Nat.lt_succ_of_le (Nat.sub_le _ _))
  obtain ⟨es, hes⟩ := updateEnemies_fuel dt _ 0 (fire env
    { st with
      gameTime := st.gameTime + dt
      player := { st.player with pos := movePlayer env dt st.player.pos } }).enemies
    (Nat.lt_succ_of_le (Nat.sub_le _ _))
  obtain ⟨xs, hxs⟩ := updateExplosions_fuel dt _ 0 (fire env
    { st with
      gameTime := st.gameTime + dt
      player := { st.player with pos := movePlayer env dt st.player.pos } }).explosions
    (Nat.lt_succ_of_le (Nat.sub_le _ _))
  simp only [Nat.cast_zero] at hbs hes hxs
  rw [hbs, hes, hxs]
  exact checkCollisions_ne_fuelOut _

/-- The player record after a completed `update`: position moved by the
direction keys and then bounds-checked, sprite advanced, display box as it
was. -/
theorem update_player (env : Env) (dt : ℚ) (st st1 : GameState)
    (h : update env dt st = .ok st1) :
    st1.player =
      { st.player with
        pos := checkBounds st.player.sprite.size (movePlayer env dt st.player.pos)
        sprite := st.player.sprite.update dt } := by
  unfold update at h
  simp only at h
  split at h
  · cases h
  · cases h
  · split at h
    · cases h
    · cases h
    · split at h
      · cases h
      · cases h
      · have hp := (collideEnemies_inv _ _ _ _ h).1
        rw [hp]
        simp only [fire_player]

/-! ## Claims -/

/-- Claim C1 (fails on the code): with one enemy overlapped by two bullets at
once, `update` does not complete: after the second hit the counter `i` is
`-2`, the loop head then reads `enemies[-1]`, which is `undefined`, and the
property read on it throws a `TypeError` out of the simulation step. -/
theorem update_throws_on_double_hit :
    update idleEnv 0 (mkState 400 400 [bulletAt 100 100, bulletAt 101 101] [enemyAt 90 90])
      = .typeError := by
  with_unfolding_all decide

/-- Claim C2 (fails on the code): with two enemies and two bullets that both
overlap the second enemy only, the pass completes and removes both enemies:
the first enemy overlaps no bullet and is spliced out by the second hit. -/
theorem checkCollisions_removes_untouched_enemy :
    checkCollisions
        (mkState 400 400 [bulletAt 310 310, bulletAt 311 311] [enemyAt 90 90, enemyAt 300 300])
      = .ok { mkState 400 400 [] [] with
              explosions := [{ pos := (300, 300), sprite := explosionSprite },
                             { pos := (300, 300), sprite := explosionSprite }] } ∧
    boxCollides (enemyAt 90 90).pos (enemyAt 90 90).sprite.size (bulletAt 310 310).pos
      bulletSprite.size = false ∧
    boxCollides (enemyAt 90 90).pos (enemyAt 90 90).sprite.size (bulletAt 311 311).pos
      bulletSprite.size = false := by
  with_unfolding_all decide

/-- Claim C3: when exactly one (enemy, bullet) pair overlaps, the enemy at
index `a` and the bullet at index `b`, `checkCollisions` completes, removes
exactly that bullet and exactly that enemy (all others stay, in order), and
appends exactly one explosion, at that enemy's position. -/
theorem checkCollisions_single_overlap (st : GameState) (a b : Nat) (e : Enemy) (bl : Bullet)
    (he : st.enemies[a]? = some e) (hb : st.bullets[b]? = some bl)
    (hc : boxCollides e.pos e.sprite.size bl.pos bulletSprite.size = true)
    (huniq : ∀ (a1 b1 : Nat) (e1 : Enemy) (bl1 : Bullet),
      st.enemies[a1]? = some e1 → st.bullets[b1]? = some bl1 →
      boxCollides e1.pos e1.sprite.size bl1.pos bulletSprite.size = true → a1 = a ∧ b1 = b) :
    ∃ st1, checkCollisions st = .ok st1 ∧
      st1.bullets = st.bullets.eraseIdx b ∧
      st1.enemies = st.enemies.eraseIdx a ∧
      st1.explosions = st.explosions ++ [{ pos := e.pos, sprite := explosionSprite }] ∧
      st1.bullets.length + 1 = st.bullets.length ∧
      st1.enemies.length + 1 = st.enemies.length ∧
      st1.explosions.length = st.explosions.length + 1 := by
  obtain ⟨ha, -⟩ := List.getElem?_eq_some.mp he
  obtain ⟨hbl, -⟩ := List.getElem?_eq_some.mp hb
  have miss : ∀ (a1 : Nat) (e1 : Enemy), a1 ≠ a → st.enemies[a1]? = some e1 →
      ∀ bl1 ∈ st.bullets, boxCollides e1.pos e1.sprite.size bl1.pos bulletSprite.size = false := by
    intro a1 e1 hne h1 bl1 hbl1
    obtain ⟨b1, h2⟩ := List.mem_iff_getElem?.mp hbl1
    by_contra hcon
    exact hne (huniq a1 b1 e1 bl1 h1 h2 (by simpa using hcon)).1
  have miss2 : ∀ (m : Nat) (bl1 : Bullet), m ≠ b → st.bullets[m]? = some bl1 →
      boxCollides e.pos e.sprite.size bl1.pos bulletSprite.size = false := by
    intro m bl1 hne h2
    by_contra hcon
    exact hne (huniq a m e bl1 he h2 (by simpa using hcon)).2
  unfold checkCollisions
  have e1 : st.enemies.length + 2 * st.bullets.length + 1
      = ((st.enemies.length + 2 * st.bullets.length - a) + 1) + a := by omega
  have h0 : (0 : Int) = ((0 : Nat) : Int) := rfl
  obtain ⟨g, hg⟩ := collideEnemies_skip a
    ((st.enemies.length + 2 * st.bullets.length - a) + 1) 0 st (by omega)
    (fun m e2 _ h2 h3 => miss m e2 (by omega) h3)
  rw [e1, h0, hg, Nat.zero_add,
    collideEnemies_step_single _ a b { st with isGameOver := g } e bl he hb hc miss2]
  obtain ⟨g2, hg2⟩ := collideEnemies_miss
    (st.enemies.length + 2 * st.bullets.length - a) a
    { st with
      bullets := st.bullets.eraseIdx b
      enemies := st.enemies.eraseIdx a
      explosions := st.explosions ++ [{ pos := e.pos, sprite := explosionSprite }]
      isGameOver :=
        boxCollides e.pos e.sprite.size st.player.pos st.player.sprite.size || g }
    (by simp only [List.length_eraseIdx, if_pos ha]; omega)
    (by
      intro e2 he2 bl2 hbl2
      simp only [drop_eraseIdx_self] at he2
      obtain ⟨m, hm⟩ := List.mem_iff_getElem?.mp he2
      rw [List.getElem?_drop] at hm
      exact miss _ e2 (by omega) hm bl2 ((List.eraseIdx_sublist _ _).subset hbl2))
  refine ⟨_, hg2, rfl, rfl, rfl, ?_, ?_, ?_⟩
  · simp only [List.length_eraseIdx, if_pos hbl]
    omega
  · simp only [List.length_eraseIdx, if_pos ha]
    omega
  · simp

/-- Claim C4: when some enemy overlaps the player's box (player position,
player sprite size) and `checkCollisions` completes, `isGameOver` is true
afterwards. -/
theorem checkCollisions_player_overlap (st st1 : GameState)
    (hex : ∃ e ∈ st.enemies,
      boxCollides e.pos e.sprite.size st.player.pos st.player.sprite.size = true)
    (h : checkCollisions st = .ok st1) : st1.isGameOver = true := by
  unfold checkCollisions at h
  exact collideEnemies_flag_raised _ 0 st st1 h (le_refl _) (by simpa using hex)

/-- Claim C5 (as amended): when a completed `checkCollisions` raises
`isGameOver`, some enemy of the list the pass started with overlaps the
player's box. -/
theorem checkCollisions_flag_needs_overlap (st st1 : GameState)
    (hplay : st.isGameOver = false) (h : checkCollisions st = .ok st1)
    (hover : st1.isGameOver = true) :
    ∃ e ∈ st.enemies,
      boxCollides e.pos e.sprite.size st.player.pos st.player.sprite.size = true := by
  unfold checkCollisions at h
  rcases collideEnemies_flag_source _ 0 st st1 h hover with h1 | h1
  · rw [hplay] at h1
    cases h1
  · exact h1

/-- Claim C6 (as amended): `collides` and `boxCollides` give the same answer
in both argument orders whenever no right edge of one rectangle lies on the
left edge of the other and no bottom edge of one lies on the top edge of the
other. -/
theorem collides_symm_off_edges :
    (∀ x y r b x2 y2 r2 b2 : ℚ, r ≠ x2 → r2 ≠ x → b ≠ y2 → b2 ≠ y →
      collides x y r b x2 y2 r2 b2 = collides x2 y2 r2 b2 x y r b) ∧
    (∀ pos size pos2 size2 : ℚ × ℚ,
      pos.1 + size.1 ≠ pos2.1 → pos2.1 + size2.1 ≠ pos.1 →
      pos.2 + size.2 ≠ pos2.2 → pos2.2 + size2.2 ≠ pos.2 →
      boxCollides pos size pos2 size2 = boxCollides pos2 size2 pos size) := by
  have key : ∀ x y r b x2 y2 r2 b2 : ℚ, r ≠ x2 → r2 ≠ x → b ≠ y2 → b2 ≠ y →
      collides x y r b x2 y2 r2 b2 = collides x2 y2 r2 b2 x y r b := by
    intro x y r b x2 y2 r2 b2 h1 h2 h3 h4
    have a1 : r ≤ x2 ↔ x2 > r := ⟨fun h => lt_of_le_of_ne h h1, le_of_lt⟩
    have a2 : x > r2 ↔ r2 ≤ x := ⟨le_of_lt, fun h => lt_of_le_of_ne h h2⟩
    have a3 : b ≤ y2 ↔ y2 > b := ⟨fun h => lt_of_le_of_ne h h3, le_of_lt⟩
    have a4 : y > b2 ↔ b2 ≤ y := ⟨le_of_lt, fun h => lt_of_le_of_ne h h4⟩
    unfold collides
    simp only [a1, a2, a3, a4]
    by_cases c1 : x2 > r <;> by_cases c2 : r2 ≤ x <;> by_cases c3 : y2 > b <;>
      by_cases c4 : b2 ≤ y <;> simp [c1, c2, c3, c4]
  refine ⟨key, ?_⟩
  intro pos size pos2 size2 h1 h2 h3 h4
  exact key _ _ _ _ _ _ _ _ h1 h2 h3 h4

/-- Claim C7 (as amended): for well-formed rectangles, `collides(A, B)` holds
exactly when `B.left < A.right`, `A.left ≤ B.right`, `B.top < A.bottom` and
`A.top ≤ B.bottom`; an overlap of non-zero area always collides, and when
`A.left ≠ B.right` and `A.top ≠ B.bottom` colliding is the same as overlapping
with non-zero area. -/
theorem collides_iff_overlap (x y r b x2 y2 r2 b2 : ℚ)
    (hA1 : x < r) (hA2 : y < b) (hB1 : x2 < r2) (hB2 : y2 < b2) :
    (collides x y r b x2 y2 r2 b2 = true ↔ x2 < r ∧ x ≤ r2 ∧ y2 < b ∧ y ≤ b2) ∧
    (max x x2 < min r r2 ∧ max y y2 < min b b2 → collides x y r b x2 y2 r2 b2 = true) ∧
    (x ≠ r2 → y ≠ b2 →
      (collides x y r b x2 y2 r2 b2 = true ↔
        max x x2 < min r r2 ∧ max y y2 < min b b2)) := by
  have key : collides x y r b x2 y2 r2 b2 = true ↔ x2 < r ∧ x ≤ r2 ∧ y2 < b ∧ y ≤ b2 := by
    unfold collides
    simp only [Bool.not_eq_true', Bool.or_eq_false_iff, decide_eq_false_iff_not, not_le,
      not_lt, gt_iff_lt]
    tauto
  refine ⟨key, ?_, ?_⟩
  · rintro ⟨h1, h2⟩
    rw [max_lt_iff, lt_min_iff, lt_min_iff] at h1 h2
    rw [key]
    exact ⟨h1.2.1, h1.1.2.le, h2.2.1, h2.1.2.le⟩
  · intro n1 n2
    rw [key, max_lt_iff, max_lt_iff, lt_min_iff, lt_min_iff, lt_min_iff, lt_min_iff]
    constructor
    · rintro ⟨h1, h2, h3, h4⟩
      exact ⟨⟨⟨hA1, lt_of_le_of_ne h2 n1⟩, h1, hB1⟩, ⟨hA2, lt_of_le_of_ne h4 n2⟩, h3, hB2⟩
    · rintro ⟨⟨⟨-, h2⟩, h1, -⟩, ⟨-, h4⟩, h3, -⟩
      exact ⟨h1, h2.le, h3, h4.le⟩

/-- Claim C8: when the first rectangle's right edge is at or left of the
second's left edge, or its bottom edge at or above the second's top edge,
`collides` with that rectangle first returns false. -/
theorem collides_false_of_right_or_bottom (x y r b x2 y2 r2 b2 : ℚ)
    (h : r ≤ x2 ∨ b ≤ y2) : collides x y r b x2 y2 r2 b2 = false := by
  unfold collides
  rcases h with h | h <;> simp [h]

theorem checkBounds_in_bounds (size p : ℚ × ℚ) (hw : size.1 ≤ canvasWidth)
    (hh : size.2 ≤ canvasHeight) :
    0 ≤ (checkBounds size p).1 ∧ (checkBounds size p).1 ≤ canvasWidth - size.1 ∧
    0 ≤ (checkBounds size p).2 ∧ (checkBounds size p).2 ≤ canvasHeight - size.2 := by
  unfold checkBounds
  dsimp only
  split_ifs <;> refine ⟨?_, ?_, ?_, ?_⟩ <;> dsimp only <;> linarith

theorem checkBounds_fixed (size p : ℚ × ℚ) (h1 : 0 ≤ p.1) (h2 : p.1 ≤ canvasWidth - size.1)
    (h3 : 0 ≤ p.2) (h4 : p.2 ≤ canvasHeight - size.2) : checkBounds size p = p := by
  unfold checkBounds
  dsimp only
  rw [if_neg (not_lt.mpr h1), if_neg (not_lt.mpr h2), if_neg (not_lt.mpr h3),
    if_neg (not_lt.mpr h4)]

/-- Claim C9: after a completed `update` the player position satisfies
`0 ≤ x ≤ canvas.width - w` and `0 ≤ y ≤ canvas.height - h` for the player's
sprite frame size `(w, h)` (any frame that fits the canvas), whatever the
starting position, keys and `dt`; for the 39x39 frame this is `x ≤ 473` and
`y ≤ 441`. -/
theorem update_player_in_bounds (env : Env) (dt : ℚ) (st st1 : GameState)
    (hw : st.player.sprite.size.1 ≤ canvasWidth) (hh : st.player.sprite.size.2 ≤ canvasHeight)
    (h : update env dt st = .ok st1) :
    0 ≤ st1.player.pos.1 ∧ st1.player.pos.1 ≤ canvasWidth - st1.player.sprite.size.1 ∧
    0 ≤ st1.player.pos.2 ∧ st1.player.pos.2 ≤ canvasHeight - st1.player.sprite.size.2 ∧
    (st.player.sprite.size = (39, 39) → st1.player.pos.1 ≤ 473 ∧ st1.player.pos.2 ≤ 441) := by
  have hp := update_player env dt st st1 h
  obtain ⟨b1, b2, b3, b4⟩ :=
    checkBounds_in_bounds st.player.sprite.size (movePlayer env dt st.player.pos) hw hh
  rw [hp]
  refine ⟨b1, b2, b3, b4, ?_⟩
  intro hs
  dsimp only
  rw [hs]
  obtain ⟨-, c2, -, c4⟩ :=
    checkBounds_in_bounds (39, 39) (movePlayer env dt st.player.pos)
      (by norm_num [canvasWidth]) (by norm_num [canvasHeight])
  simp only [canvasWidth, canvasHeight] at c2 c4
  constructor <;> linarith

/-- Claim C10 (as amended): bounds-clamping in `update` uses the player's
39x39 sprite frame, not the declared display box: after a completed `update`
`x ≤ canvas.width - 39` and `y ≤ canvas.height - 39`, the display box is as it
was, and a moved position already inside `[0, 473] x [0, 441]` is kept as it
is. -/
theorem update_clamps_to_sprite_frame (env : Env) (dt : ℚ) (st st1 : GameState)
    (hs : st.player.sprite.size = (39, 39)) (h : update env dt st = .ok st1) :
    st1.player.pos.1 ≤ canvasWidth - 39 ∧ st1.player.pos.2 ≤ canvasHeight - 39 ∧
    st1.player.sizeX = st.player.sizeX ∧ st1.player.sizeY = st.player.sizeY ∧
    (0 ≤ (movePlayer env dt st.player.pos).1 → (movePlayer env dt st.player.pos).1 ≤ 473 →
      0 ≤ (movePlayer env dt st.player.pos).2 → (movePlayer env dt st.player.pos).2 ≤ 441 →
      st1.player.pos = movePlayer env dt st.player.pos) := by
  have hp := update_player env dt st st1 h
  obtain ⟨-, b2, -, b4⟩ :=
    checkBounds_in_bounds (39, 39) (movePlayer env dt st.player.pos)
      (by norm_num [canvasWidth]) (by norm_num [canvasHeight])
  rw [hp]
  dsimp only
  rw [hs]
  refine ⟨b2, b4, rfl, rfl, ?_⟩
  intro m1 m2 m3 m4
  apply checkBounds_fixed
  · exact m1
  · simp only [canvasWidth]; linarith
  · exact m3
  · simp only [canvasHeight]; linarith

/-! ## Concrete instances -/

/-- Instance of C3: two enemies and two bullets of which only the second
enemy and the second bullet overlap. -/
theorem checkCollisions_single_overlap_witness :
    ∃ st1,
      checkCollisions
          (mkState 400 400 [bulletAt 10 10, bulletAt 310 310] [enemyAt 90 90, enemyAt 300 300])
        = .ok st1 ∧
      st1.bullets = [bulletAt 10 10, bulletAt 310 310].eraseIdx 1 ∧
      st1.enemies = [enemyAt 90 90, enemyAt 300 300].eraseIdx 1 ∧
      st1.explosions = [] ++ [{ pos := (enemyAt 300 300).pos, sprite := explosionSprite }] ∧
      st1.bullets.length + 1 = 2 ∧ st1.enemies.length + 1 = 2 ∧
      st1.explosions.length = 0 + 1 :=
  checkCollisions_single_overlap
    (mkState 400 400 [bulletAt 10 10, bulletAt 310 310] [enemyAt 90 90, enemyAt 300 300])
    1 1 (enemyAt 300 300) (bulletAt 310 310) rfl rfl (by with_unfolding_all decide)
    (by
      intro a1 b1 e1 bl1 h1 h2 h3
      have ha : a1 < 2 := (List.getElem?_eq_some.mp h1).1
      have hb : b1 < 2 := (List.getElem?_eq_some.mp h2).1
      have hall : ∀ a ∈ List.range 2, ∀ b ∈ List.range 2,
          ∀ e ∈ [enemyAt 90 90, enemyAt 300 300][a]?, ∀ bl ∈ [bulletAt 10 10, bulletAt 310 310][b]?,
            boxCollides e.pos e.sprite.size bl.pos bulletSprite.size = true → a = 1 ∧ b = 1 := by
        with_unfolding_all decide
      exact hall a1 (List.mem_range.mpr ha) b1 (List.mem_range.mpr hb) e1 h1 bl1 h2 h3)

/-- Instance of C4, the scenario of the specification: player at (50, 240), a
single 80x39 enemy at (60, 240), no bullets. -/
theorem checkCollisions_player_overlap_witness :
    checkCollisions (mkState 50 240 [] [enemyAt 60 240])
      = .ok { mkState 50 240 [] [enemyAt 60 240] with isGameOver := true } ∧
    ({ mkState 50 240 [] [enemyAt 60 240] with isGameOver := true } : GameState).isGameOver
      = true :=
  have hrun : checkCollisions (mkState 50 240 [] [enemyAt 60 240])
      = .ok { mkState 50 240 [] [enemyAt 60 240] with isGameOver := true } := by
    with_unfolding_all decide
  ⟨hrun, checkCollisions_player_overlap (mkState 50 240 [] [enemyAt 60 240]) _
    ⟨enemyAt 60 240, List.mem_singleton.mpr rfl, by with_unfolding_all decide⟩ hrun⟩

/-- Claim C5 as stated fails: an enemy that overlaps both a bullet and the
player is destroyed by the bullet and still ends the game; afterwards no
enemy is left in `enemies`. -/
theorem checkCollisions_dead_enemy_ends_game :
    ∃ st1, checkCollisions (mkState 50 240 [bulletAt 70 250] [enemyAt 60 240]) = .ok st1 ∧
      (mkState 50 240 [bulletAt 70 250] [enemyAt 60 240]).isGameOver = false ∧
      st1.isGameOver = true ∧
      ¬ ∃ e ∈ st1.enemies,
        boxCollides e.pos e.sprite.size st1.player.pos st1.player.sprite.size = true :=
  ⟨{ mkState 50 240 [] [] with
      explosions := [{ pos := (60, 240), sprite := explosionSprite }]
      isGameOver := true },
    by with_unfolding_all decide, rfl, rfl, by simp [mkState]⟩

/-- Instance of C5 as amended, on the same state. -/
theorem checkCollisions_flag_needs_overlap_witness :
    ∃ e ∈ (mkState 50 240 [bulletAt 70 250] [enemyAt 60 240]).enemies,
      boxCollides e.pos e.sprite.size
        (mkState 50 240 [bulletAt 70 250] [enemyAt 60 240]).player.pos
        (mkState 50 240 [bulletAt 70 250] [enemyAt 60 240]).player.sprite.size = true :=
  checkCollisions_flag_needs_overlap (mkState 50 240 [bulletAt 70 250] [enemyAt 60 240])
    { mkState 50 240 [] [] with
      explosions := [{ pos := (60, 240), sprite := explosionSprite }]
      isGameOver := true }
    rfl (by with_unfolding_all decide) rfl

/-- Claim C6 as stated fails: with `A = (0, 0, 1, 1)` and `B = (1, 0, 2, 1)`,
which share the edge `x = 1`, `collides(A, B)` is false and `collides(B, A)`
is true; the same for `boxCollides`. -/
theorem collides_not_symmetric :
    collides 0 0 1 1 1 0 2 1 = false ∧ collides 1 0 2 1 0 0 1 1 = true ∧
    boxCollides (0, 0) (1, 1) (1, 0) (1, 1) = false ∧
    boxCollides (1, 0) (1, 1) (0, 0) (1, 1) = true := by
  with_unfolding_all decide

/-- Instance of C6 as amended: two rectangles with no touching edges. -/
theorem collides_symm_off_edges_witness :
    collides 0 0 2 2 1 1 3 3 = collides 1 1 3 3 0 0 2 2 :=
  collides_symm_off_edges.1 0 0 2 2 1 1 3 3 (by norm_num) (by norm_num) (by norm_num)
    (by norm_num)

/-- Claim C7 as stated fails: `A = (1, 0, 2, 1)` and `B = (0, 0, 1, 1)` are
well-formed and share only the edge `x = 1`, yet `collides(A, B)` is true. -/
theorem collides_on_shared_edge :
    ((1 : ℚ) < 2 ∧ (0 : ℚ) < 1) ∧ ((0 : ℚ) < 1 ∧ (0 : ℚ) < 1) ∧
    collides 1 0 2 1 0 0 1 1 = true ∧
    ¬ (max (1 : ℚ) 0 < min 2 1 ∧ max (0 : ℚ) 0 < min 1 1) := by
  refine ⟨by norm_num, by norm_num, by with_unfolding_all decide, ?_⟩
  norm_num

/-- Instance of C7 as amended. -/
theorem collides_iff_overlap_witness :
    (collides 0 0 2 2 1 1 3 3 = true ↔
      (1 : ℚ) < 2 ∧ (0 : ℚ) ≤ 3 ∧ (1 : ℚ) < 2 ∧ (0 : ℚ) ≤ 3) ∧
    (max (0 : ℚ) 1 < min 2 3 ∧ max (0 : ℚ) 1 < min 2 3 → collides 0 0 2 2 1 1 3 3 = true) ∧
    ((0 : ℚ) ≠ 3 → (0 : ℚ) ≠ 3 →
      (collides 0 0 2 2 1 1 3 3 = true ↔
        max (0 : ℚ) 1 < min 2 3 ∧ max (0 : ℚ) 1 < min 2 3)) :=
  collides_iff_overlap 0 0 2 2 1 1 3 3 (by norm_num) (by norm_num) (by norm_num) (by norm_num)

/-- Instance of C8: `A = (0, 0, 1, 1)` first, `B = (1, 0, 2, 1)` second. -/
theorem collides_false_of_right_or_bottom_witness :
    ((1 : ℚ) ≤ 1 ∨ (1 : ℚ) ≤ 0) ∧ collides 0 0 1 1 1 0 2 1 = false :=
  ⟨Or.inl (le_refl _), collides_false_of_right_or_bottom 0 0 1 1 1 0 2 1 (Or.inl (le_refl _))⟩

/-- Instance of C9: a player that starts outside the canvas at (600, 500) is
at (473, 441) after the step. -/
theorem update_player_in_bounds_witness :
    update idleEnv 0 (mkState 600 500 [] []) = .ok (mkState 473 441 [] []) ∧
    (0 ≤ (mkState 473 441 [] []).player.pos.1 ∧
     (mkState 473 441 [] []).player.pos.1
        ≤ canvasWidth - (mkState 473 441 [] []).player.sprite.size.1 ∧
     0 ≤ (mkState 473 441 [] []).player.pos.2 ∧
     (mkState 473 441 [] []).player.pos.2
        ≤ canvasHeight - (mkState 473 441 [] []).player.sprite.size.2 ∧
     ((mkState 600 500 [] []).player.sprite.size = (39, 39) →
        (mkState 473 441 [] []).player.pos.1 ≤ 473 ∧
        (mkState 473 441 [] []).player.pos.2 ≤ 441)) :=
  have hrun : update idleEnv 0 (mkState 600 500 [] []) = .ok (mkState 473 441 [] []) := by
    with_unfolding_all decide
  ⟨hrun, update_player_in_bounds idleEnv 0 (mkState 600 500 [] []) (mkState 473 441 [] [])
    (by with_unfolding_all decide) (by with_unfolding_all decide) hrun⟩

/-- Claim C10 as stated fails: a player at (450, 400) with no key held stays
there, beyond `canvas.width - sizeX = 412` and `canvas.height - sizeY = 380`. -/
theorem update_ignores_display_box :
    ∃ st1, update idleEnv 0 (mkState 450 400 [] []) = .ok st1 ∧
      st1.player.sizeX = 100 ∧ st1.player.sizeY = 100 ∧
      ¬ (st1.player.pos.1 ≤ canvasWidth - st1.player.sizeX) ∧
      ¬ (st1.player.pos.2 ≤ canvasHeight - st1.player.sizeY) :=
  ⟨mkState 450 400 [] [], by with_unfolding_all decide, rfl, rfl,
    by with_unfolding_all decide, by with_unfolding_all decide⟩

/-- Instance of C10 as amended, on the same state. -/
theorem update_clamps_to_sprite_frame_witness :
    (mkState 450 400 [] []).player.pos.1 ≤ canvasWidth - 39 ∧
    (mkState 450 400 [] []).player.pos.2 ≤ canvasHeight - 39 ∧
    (mkState 450 400 [] []).player.sizeX = (mkState 450 400 [] []).player.sizeX ∧
    (mkState 450 400 [] []).player.sizeY = (mkState 450 400 [] []).player.sizeY ∧
    (0 ≤ (movePlayer idleEnv 0 (mkState 450 400 [] []).player.pos).1 →
      (movePlayer idleEnv 0 (mkState 450 400 [] []).player.pos).1 ≤ 473 →
      0 ≤ (movePlayer idleEnv 0 (mkState 450 400 [] []).player.pos).2 →
      (movePlayer idleEnv 0 (mkState 450 400 [] []).player.pos).2 ≤ 441 →
      (mkState 450 400 [] []).player.pos
        = movePlayer idleEnv 0 (mkState 450 400 [] []).player.pos) :=
  update_clamps_to_sprite_frame idleEnv 0 (mkState 450 400 [] []) (mkState 450 400 [] [])
    rfl (by with_unfolding_all decide)

/-! ## The scans of `update` refine their specifications -/

theorem mid_get {α : Type} (pre : List α) (b : α) (t : List α) :
    (pre ++ b :: t)[pre.length]? = some b := by
  rw [List.getElem?_append_right (le_refl _)]
  simp

theorem mid_set {α : Type} (pre : List α) (a b : α) (t : List α) :
    (pre ++ b :: t).set pre.length a = pre ++ a :: t := by
  simp

theorem mid_erase {α : Type} (pre : List α) (b : α) (t : List α) :
    (pre ++ b :: t).eraseIdx pre.length = pre ++ t := by
  rw [List.eraseIdx_append_of_length_le (le_refl _)]
  simp

/-- The loop `updateBullets` of `update`, started at position `pre.length`, leaves
the elements before it alone and turns the rest into `advanceBullets` of it: no
element is skipped and none is visited twice. -/
theorem updateBullets_scan (dt : ℚ) :
    ∀ (k : Nat) (pre rest : List Bullet), rest.length < k →
      updateBullets dt k (pre.length : Int) (pre ++ rest) = .ok (pre ++ advanceBullets dt rest) := by
  intro k
  induction k with
  | zero => intro pre rest h; omega
  | succ k ih =>
    intro pre rest h
    cases rest with
    | nil =>
      simp only [updateBullets, List.append_nil]
      rw [if_neg (lt_irrefl _)]
      simp [advanceBullets]
    | cons b t =>
      have hlt : (pre.length : Int) < ((pre ++ b :: t).length : Int) := by
        simp only [List.length_append, List.length_cons]
        push_cast
        omega
      have ht : t.length < k := by
        simp only [List.length_cons] at h
        omega
      have hj : ((pre.length : Int) - 1 + 1) = (pre.length : Int) := by omega
      simp only [updateBullets]
      rw [if_pos hlt, jsGet_natCast, mid_get]
      simp only
      rw [Int.toNat_ofNat, mid_set, jsGet_natCast, mid_get]
      simp only
      by_cases hc : b.pos.1 + bulletSpeed * dt > canvasWidth
      · rw [if_pos hc, hj, splice1_natCast, mid_erase, ih pre t ht]
        simp [advanceBullets, List.filter_cons, hc]
      · rw [if_neg hc]
        have hj1 : ((pre.length : Int) + 1)
            = ((pre ++ [({ b with pos := (b.pos.1 + bulletSpeed * dt, b.pos.2) } : Bullet)]).length : Int) := by
          simp
        have happ : pre ++ ({ b with pos := (b.pos.1 + bulletSpeed * dt, b.pos.2) } : Bullet) :: t
            = (pre ++ [({ b with pos := (b.pos.1 + bulletSpeed * dt, b.pos.2) } : Bullet)]) ++ t := by
          simp
        rw [hj1, happ, ih _ t ht]
        have hc1 := not_lt.mp hc
        simp [advanceBullets, List.filter_cons, hc1]

/-- The loop `updateEnemies` of `update`, started at position `pre.length`, leaves
the elements before it alone and turns the rest into `advanceEnemies` of it: no
element is skipped and none is visited twice. -/
theorem updateEnemies_scan (dt : ℚ) :
    ∀ (k : Nat) (pre rest : List Enemy), rest.length < k →
      updateEnemies dt k (pre.length : Int) (pre ++ rest) = .ok (pre ++ advanceEnemies dt rest) := by
  intro k
  induction k with
  | zero => intro pre rest h; omega
  | succ k ih =>
    intro pre rest h
    cases rest with
    | nil =>
      simp only [updateEnemies, List.append_nil]
      rw [if_neg (lt_irrefl _)]
      simp [advanceEnemies]
    | cons b t =>
      have hlt : (pre.length : Int) < ((pre ++ b :: t).length : Int) := by
        simp only [List.length_append, List.length_cons]
        push_cast
        omega
      have ht : t.length < k := by
        simp only [List.length_cons] at h
        omega
      have hj : ((pre.length : Int) - 1 + 1) = (pre.length : Int) := by omega
      simp only [updateEnemies]
      rw [if_pos hlt, jsGet_natCast, mid_get]
      simp only
      rw [Int.toNat_ofNat, mid_set, jsGet_natCast, mid_get]
      simp only
      by_cases hc : b.pos.1 - enemySpeed * dt + (b.sprite.update dt).size.1 < 0
      · rw [if_pos hc, hj, splice1_natCast, mid_erase, ih pre t ht]
        simp [advanceEnemies, List.filter_cons, hc]
      · rw [if_neg hc]
        have hj1 : ((pre.length : Int) + 1)
            = ((pre ++ [({ b with pos := (b.pos.1 - enemySpeed * dt, b.pos.2), sprite := b.sprite.update dt } : Enemy)]).length : Int) := by
          simp
        have happ : pre ++ ({ b with pos := (b.pos.1 - enemySpeed * dt, b.pos.2), sprite := b.sprite.update dt } : Enemy) :: t
            = (pre ++ [({ b with pos := (b.pos.1 - enemySpeed * dt, b.pos.2), sprite := b.sprite.update dt } : Enemy)]) ++ t := by
          simp
        rw [hj1, happ, ih _ t ht]
        have hc1 := not_lt.mp hc
        simp [advanceEnemies, List.filter_cons, hc1]

/-- The loop `updateExplosions` of `update`, started at position `pre.length`, leaves
the elements before it alone and turns the rest into `advanceExplosions` of it: no
element is skipped and none is visited twice. -/
theorem updateExplosions_scan (dt : ℚ) :
    ∀ (k : Nat) (pre rest : List Explosion), rest.length < k →
      updateExplosions dt k (pre.length : Int) (pre ++ rest) = .ok (pre ++ advanceExplosions dt rest) := by
  intro k
  induction k with
  | zero => intro pre rest h; omega
  | succ k ih =>
    intro pre rest h
    cases rest with
    | nil =>
      simp only [updateExplosions, List.append_nil]
      rw [if_neg (lt_irrefl _)]
      simp [advanceExplosions]
    | cons b t =>
      have hlt : (pre.length : Int) < ((pre ++ b :: t).length : Int) := by
        simp only [List.length_append, List.length_cons]
        push_cast
        omega
      have ht : t.length < k := by
        simp only [List.length_cons] at h
        omega
      have hj : ((pre.length : Int) - 1 + 1) = (pre.length : Int) := by omega
      simp only [updateExplosions]
      rw [if_pos hlt, jsGet_natCast, mid_get]
      simp only
      rw [Int.toNat_ofNat, mid_set, jsGet_natCast, mid_get]
      simp only
      by_cases hc : (b.sprite.update dt).done = true
      · rw [if_pos hc, hj, splice1_natCast, mid_erase, ih pre t ht]
        simp [advanceExplosions, List.filter_cons, hc]
      · rw [if_neg hc]
        have hj1 : ((pre.length : Int) + 1)
            = ((pre ++ [({ b with sprite := b.sprite.update dt } : Explosion)]).length : Int) := by
          simp
        have happ : pre ++ ({ b with sprite := b.sprite.update dt } : Explosion) :: t
            = (pre ++ [({ b with sprite := b.sprite.update dt } : Explosion)]) ++ t := by
          simp
        rw [hj1, happ, ih _ t ht]
        simp [advanceExplosions, List.filter_cons, hc]

theorem updateBullets_run (dt : ℚ) (bs : List Bullet) :
    updateBullets dt (bs.length + 1) 0 bs = .ok (advanceBullets dt bs) := by
  have h := updateBullets_scan dt (bs.length + 1) [] bs (Nat.lt_succ_self _)
  simpa using h

theorem updateEnemies_run (dt : ℚ) (es : List Enemy) :
    updateEnemies dt (es.length + 1) 0 es = .ok (advanceEnemies dt es) := by
  have h := updateEnemies_scan dt (es.length + 1) [] es (Nat.lt_succ_self _)
  simpa using h

theorem updateExplosions_run (dt : ℚ) (xs : List Explosion) :
    updateExplosions dt (xs.length + 1) 0 xs = .ok (advanceExplosions dt xs) := by
  have h := updateExplosions_scan dt (xs.length + 1) [] xs (Nat.lt_succ_self _)
  simpa using h

/-- Function `update` is `checkCollisions` run on the state in which the
player has moved, fired and been bounds-checked, the three scans have run and
the spawner has been asked. -/
theorem update_eq_checkCollisions (env : Env) (dt : ℚ) (st : GameState) :
    update env dt st = checkCollisions (beforeCollisions env dt st) := by
  unfold update
  simp only
  rw [updateBullets_run, updateEnemies_run, updateExplosions_run]
  rfl

/-! ## Frame facts for firing and for the collision pass -/

theorem fire_fields (env : Env) (st : GameState) :
    (fire env st).player = st.player ∧ (fire env st).enemies = st.enemies ∧
    (fire env st).explosions = st.explosions ∧ (fire env st).gameTime = st.gameTime ∧
    (fire env st).isGameOver = st.isGameOver := by
  unfold fire
  split
  · split <;> simp
  · simp

theorem fire_idle (env : Env) (st : GameState) (h : env.isDown Key.SPACE = false) :
    fire env st = st := by
  unfold fire
  simp [h]

/-- A completed bullet scan only removes bullets and enemies, keeping order. -/
theorem collideBullets_sublist (pos size : ℚ × ℚ) :
    ∀ (k : Nat) (i j : Int) (st : GameState) (i1 : Int) (st1 : GameState),
      collideBullets pos size k i j st = .ok (i1, st1) →
      st1.bullets.Sublist st.bullets ∧ st1.enemies.Sublist st.enemies := by
  intro k
  induction k with
  | zero => intro i j st i1 st1 h; simp [collideBullets] at h
  | succ k ih =>
    intro i j st i1 st1 h
    simp only [collideBullets] at h
    split at h
    · split at h
      · cases h
      · split at h
        · obtain ⟨h1, h2⟩ := ih _ _ _ _ _ h
          exact ⟨h1.trans (List.eraseIdx_sublist _ _), h2.trans (List.eraseIdx_sublist _ _)⟩
        · exact ih _ _ _ _ _ h
    · simp only [Outcome.ok.injEq, Prod.mk.injEq] at h
      obtain ⟨-, rfl⟩ := h
      exact ⟨List.Sublist.refl _, List.Sublist.refl _⟩

/-- A completed collision pass only removes bullets and enemies, keeping
order. -/
theorem collideEnemies_sublist :
    ∀ (k : Nat) (i : Int) (st st1 : GameState), collideEnemies k i st = .ok st1 →
      st1.bullets.Sublist st.bullets ∧ st1.enemies.Sublist st.enemies := by
  intro k
  induction k with
  | zero => intro i st st1 h; simp [collideEnemies] at h
  | succ k ih =>
    intro i st st1 h
    simp only [collideEnemies] at h
    split at h
    · split at h
      · cases h
      · next e _ =>
        split at h
        · next i2 st2 hb =>
          obtain ⟨h1, h2⟩ := collideBullets_sublist _ _ _ _ _ _ _ _ hb
          obtain ⟨h3, h4⟩ := ih _ _ _ h
          obtain ⟨-, fb, fe, -, -, -, -⟩ :=
            playerTest_fields
              (boxCollides e.pos e.sprite.size st2.player.pos st2.player.sprite.size) st2
          rw [fb] at h3
          rw [fe] at h4
          exact ⟨h3.trans h1, h4.trans h2⟩
        · cases h
        · cases h
    · cases h
      exact ⟨List.Sublist.refl _, List.Sublist.refl _⟩

/-- The bullet scan does not look at the lifecycle flag. -/
theorem collideBullets_withFlag (pos size : ℚ × ℚ) (g : Bool) :
    ∀ (k : Nat) (i j : Int) (st : GameState),
      collideBullets pos size k i j (withFlag g st)
        = (collideBullets pos size k i j st).map fun r => (r.1, withFlag g r.2) := by
  intro k
  induction k with
  | zero => intro i j st; rfl
  | succ k ih =>
    intro i j st
    simp only [collideBullets]
    have hb : (withFlag g st).bullets = st.bullets := rfl
    rw [hb]
    split
    · split
      · rfl
      · split
        · exact ih (i - 1) (j - 1 + 1)
            { st with
              bullets := splice1 st.bullets j
              enemies := splice1 st.enemies i
              explosions := st.explosions ++ [{ pos := pos, sprite := explosionSprite }] }
        · exact ih i (j + 1) st
    · rfl

/-- The collision pass depends on the lifecycle flag only through the flag of
its result. -/
theorem collideEnemies_withFlag :
    ∀ (k : Nat) (i : Int) (st : GameState) (g : Bool),
      (collideEnemies k i (withFlag g st)).map (withFlag false)
        = (collideEnemies k i st).map (withFlag false) := by
  intro k
  induction k with
  | zero => intro i st g; rfl
  | succ k ih =>
    intro i st g
    simp only [collideEnemies]
    have he : (withFlag g st).enemies = st.enemies := rfl
    have hb : (withFlag g st).bullets = st.bullets := rfl
    rw [he, hb]
    split
    · split
      · rfl
      · next e _ =>
        rw [collideBullets_withFlag]
        cases hres : collideBullets e.pos e.sprite.size (st.bullets.length + 1) i 0 st with
        | typeError => rfl
        | fuelOut => rfl
        | ok r =>
          obtain ⟨i1, s1⟩ := r
          simp only [Outcome.map]
          rw [playerTest_eq, playerTest_eq]
          have e1 := ih (i1 + 1) s1
            (boxCollides e.pos e.sprite.size s1.player.pos s1.player.sprite.size || g)
          have e2 := ih (i1 + 1) s1
            (boxCollides e.pos e.sprite.size s1.player.pos s1.player.sprite.size
              || s1.isGameOver)
          exact e1.trans e2.symm
    · rfl

/-! ## Claims on firing, reset and the lifecycle -/

theorem update_fields (env : Env) (dt : ℚ) (st st1 : GameState)
    (h : update env dt st = .ok st1) :
    st1.gameTime = st.gameTime + dt ∧
    st1.lastFire = (fire env
      { st with
        gameTime := st.gameTime + dt
        player := { st.player with pos := movePlayer env dt st.player.pos } }).lastFire ∧
    (st.isGameOver = true → st1.isGameOver = true) ∧
    st1.bullets.Sublist (beforeCollisions env dt st).bullets ∧
    st1.enemies.Sublist (beforeCollisions env dt st).enemies := by
  rw [update_eq_checkCollisions] at h
  unfold checkCollisions at h
  obtain ⟨-, ht, hl, hg, -⟩ := collideEnemies_inv _ _ _ _ h
  obtain ⟨hb, he⟩ := collideEnemies_sublist _ _ _ _ h
  refine ⟨?_, hl, ?_, hb, he⟩
  · rw [ht]
    simp only [beforeCollisions]
    exact (fire_fields env _).2.2.2.1
  · intro h0
    apply hg
    simp only [beforeCollisions]
    rw [(fire_fields env _).2.2.2.2]
    exact h0

/-- Claim C11 (as amended): the fire step of `update` appends one bullet at
the centre of the player's sprite frame and sets `lastFire` to the clock
exactly when SPACE is held, the game is not over and more than 100 ms have
passed since the last shot (`now - lastFire > 100`); otherwise it changes
nothing.  After a completed `update`, `lastFire` is the clock in the first
case and unchanged in the second.  Two attempts 100 ms or less apart yield
one bullet, two attempts more than 100 ms apart yield two. -/
theorem fire_rate_limit (env : Env) (st : GameState) :
    (env.isDown Key.SPACE = true ∧ st.isGameOver = false ∧ env.now1 - st.lastFire > 100 →
      fire env st =
        { st with
          bullets := st.bullets ++
            [{ pos := (st.player.pos.1 + st.player.sprite.size.1 / 2,
                       st.player.pos.2 + st.player.sprite.size.2 / 2) }]
          lastFire := env.now2 }) ∧
    (¬ (env.isDown Key.SPACE = true ∧ st.isGameOver = false ∧ env.now1 - st.lastFire > 100) →
      fire env st = st) ∧
    (∀ (dt : ℚ) (st1 : GameState), update env dt st = .ok st1 →
      st1.lastFire =
        if env.isDown Key.SPACE = true ∧ st.isGameOver = false ∧ env.now1 - st.lastFire > 100
        then env.now2 else st.lastFire) ∧
    (∀ env2 : Env, env.isDown Key.SPACE = true → env2.isDown Key.SPACE = true →
      st.isGameOver = false → env.now1 - st.lastFire > 100 →
      (env2.now1 - env.now2 ≤ 100 →
        (fire env2 (fire env st)).bullets.length = st.bullets.length + 1) ∧
      (env2.now1 - env.now2 > 100 →
        (fire env2 (fire env st)).bullets.length = st.bullets.length + 2)) := by
  have hyes : ∀ (e : Env) (s : GameState),
      e.isDown Key.SPACE = true ∧ s.isGameOver = false ∧ e.now1 - s.lastFire > 100 →
      fire e s =
        { s with
          bullets := s.bullets ++
            [{ pos := (s.player.pos.1 + s.player.sprite.size.1 / 2,
                       s.player.pos.2 + s.player.sprite.size.2 / 2) }]
          lastFire := e.now2 } := by
    rintro e s ⟨h1, h2, h3⟩
    unfold fire
    simp [h1, h2, h3]
  have hno : ∀ (e : Env) (s : GameState),
      ¬ (e.isDown Key.SPACE = true ∧ s.isGameOver = false ∧ e.now1 - s.lastFire > 100) →
      fire e s = s := by
    intro e s hn
    unfold fire
    by_cases h1 : e.isDown Key.SPACE = true
    · by_cases h2 : s.isGameOver = false
      · have h3 : ¬ (e.now1 - s.lastFire > 100) := fun h3 => hn ⟨h1, h2, h3⟩
        simp [h1, h2, h3]
      · simp [h1, h2]
    · simp [h1]
  refine ⟨hyes env st, hno env st, ?_, ?_⟩
  · intro dt st1 h
    rw [(update_fields env dt st st1 h).2.1]
    split
    · next hc =>
      rw [hyes env
        { st with
          gameTime := st.gameTime + dt
          player := { st.player with pos := movePlayer env dt st.player.pos } } hc]
    · next hc =>
      rw [hno env
        { st with
          gameTime := st.gameTime + dt
          player := { st.player with pos := movePlayer env dt st.player.pos } } hc]
  · intro env2 h1 h2 h3 h4
    rw [hyes env st ⟨h1, h3, h4⟩]
    constructor
    · intro h5
      rw [hno env2
        { st with
          bullets := st.bullets ++
            [{ pos := (st.player.pos.1 + st.player.sprite.size.1 / 2,
                       st.player.pos.2 + st.player.sprite.size.2 / 2) }]
          lastFire := env.now2 }
        (by
          rintro ⟨-, -, h6⟩
          simp only at h6
          omega)]
      simp
    · intro h5
      rw [hyes env2
        { st with
          bullets := st.bullets ++
            [{ pos := (st.player.pos.1 + st.player.sprite.size.1 / 2,
                       st.player.pos.2 + st.player.sprite.size.2 / 2) }]
          lastFire := env.now2 }
        ⟨h2, h3, h5⟩]
      simp

/-- Claim C12: after `reset()`, `gameTime = 0`, `bullets` and `enemies` are
empty, the player is at `(50, canvas.height / 2) = (50, 240)` and
`isGameOver` is false. -/
theorem reset_restores (st : GameState) :
    (reset st).gameTime = 0 ∧ (reset st).bullets = [] ∧ (reset st).enemies = [] ∧
    (reset st).player.pos = (50, canvasHeight / 2) ∧ (reset st).player.pos = (50, 240) ∧
    (reset st).isGameOver = false := by
  refine ⟨rfl, rfl, rfl, rfl, ?_, rfl⟩
  simp only [reset, canvasHeight]
  norm_num

/-- Claim C13: `reset()` leaves `explosions`, `lastFire` and the player's
display box and sprite exactly as they were. -/
theorem reset_frame (st : GameState) :
    (reset st).explosions = st.explosions ∧ (reset st).lastFire = st.lastFire ∧
    (reset st).player.sizeX = st.player.sizeX ∧ (reset st).player.sizeY = st.player.sizeY ∧
    (reset st).player.sprite = st.player.sprite :=
  ⟨rfl, rfl, rfl, rfl, rfl⟩

/-- Claim C14: from a game-over state, `isGameOver` is still true after every
completed `update`, `gameOver()` changes nothing, and `reset()` is what sets
the flag to false. -/
theorem gameOver_absorbing (env : Env) (dt : ℚ) (st st1 : GameState)
    (hover : st.isGameOver = true) :
    (update env dt st = .ok st1 → st1.isGameOver = true) ∧
    (checkCollisions st = .ok st1 → st1.isGameOver = true) ∧
    gameOver st = st ∧ (reset st).isGameOver = false := by
  refine ⟨?_, ?_, ?_, rfl⟩
  · intro h
    exact (update_fields env dt st st1 h).2.2.1 hover
  · intro h
    unfold checkCollisions at h
    exact (collideEnemies_inv _ _ _ _ h).2.2.2.1 hover
  · unfold gameOver
    rw [← hover]

theorem runUpdates_gameTime :
    ∀ (steps : List (Env × ℚ)) (st st1 : GameState), runUpdates steps st = .ok st1 →
      st1.gameTime = st.gameTime + (steps.map Prod.snd).sum := by
  intro steps
  induction steps with
  | nil =>
    intro st st1 h
    simp only [runUpdates, Outcome.ok.injEq] at h
    rw [← h]
    simp
  | cons a rest ih =>
    intro st st1 h
    obtain ⟨env, dt⟩ := a
    simp only [runUpdates] at h
    split at h
    · next s2 h2 =>
      rw [ih _ _ h, (update_fields env dt st s2 h2).1]
      simp only [List.map_cons, List.sum_cons]
      ring
    · cases h
    · cases h

/-- Claim C15: after `reset()` and any sequence of completed updates with
deltas `dt_1 .. dt_n`, `gameTime = dt_1 + ... + dt_n`; each completed update
adds `dt` to `gameTime`, so with `dt ≥ 0` it does not decrease. -/
theorem gameTime_cumulative :
    (∀ (steps : List (Env × ℚ)) (st st1 : GameState),
      runUpdates steps (reset st) = .ok st1 → st1.gameTime = (steps.map Prod.snd).sum) ∧
    (∀ (env : Env) (dt : ℚ) (st st1 : GameState), update env dt st = .ok st1 →
      st1.gameTime = st.gameTime + dt ∧ (0 ≤ dt → st.gameTime ≤ st1.gameTime)) := by
  constructor
  · intro steps st st1 h
    rw [runUpdates_gameTime steps _ _ h]
    simp [reset]
  · intro env dt st st1 h
    have h1 := (update_fields env dt st st1 h).1
    refine ⟨h1, ?_⟩
    intro h0
    rw [h1]
    linarith

/-! ## Claims on the spawner, the scans and the fired bullet -/

theorem beforeCollisions_enemies (env : Env) (dt : ℚ) (st : GameState) :
    (beforeCollisions env dt st).enemies
      = spawn env (st.gameTime + dt) (advanceEnemies dt st.enemies) := by
  simp only [beforeCollisions]
  rw [(fire_fields env _).2.1, (fire_fields env _).2.2.2.1]

/-- Claim C16: `update` hands `checkCollisions` the advanced enemies plus
exactly one new enemy when the draw `r` satisfies `r < 1 - 0.993^gameTime`,
and the advanced enemies alone otherwise.  When `gameTime` is `0` at that
point (and `Math.pow(0.993, 0) = 1`), the probability is `0` and for every
draw `r ≥ 0` no enemy is created: the enemies after the step are advanced old
enemies only. -/
theorem update_spawn_rule (env : Env) (dt : ℚ) (st : GameState) :
    update env dt st = checkCollisions (beforeCollisions env dt st) ∧
    (beforeCollisions env dt st).enemies =
      (if env.random1 < 1 - env.pow (993 / 1000) (st.gameTime + dt) then
        advanceEnemies dt st.enemies ++
          [{ pos := (canvasWidth, env.random2 * (canvasHeight - 39)), sprite := enemySprite }]
      else advanceEnemies dt st.enemies) ∧
    (st.gameTime + dt = 0 → env.pow (993 / 1000) 0 = 1 → 0 ≤ env.random1 →
      1 - env.pow (993 / 1000) (st.gameTime + dt) = 0 ∧
      (beforeCollisions env dt st).enemies = advanceEnemies dt st.enemies ∧
      ∀ st1, update env dt st = .ok st1 →
        st1.enemies.Sublist (advanceEnemies dt st.enemies)) := by
  refine ⟨update_eq_checkCollisions env dt st, ?_, ?_⟩
  · rw [beforeCollisions_enemies]
    rfl
  · intro h0 hpow hr
    have hp : 1 - env.pow (993 / 1000) (st.gameTime + dt) = 0 := by
      rw [h0, hpow]
      norm_num
    have he : (beforeCollisions env dt st).enemies = advanceEnemies dt st.enemies := by
      rw [beforeCollisions_enemies]
      unfold spawn
      rw [hp, if_neg (not_lt.mpr hr)]
    refine ⟨hp, he, ?_⟩
    intro st1 h
    rw [← he]
    exact (update_fields env dt st st1 h).2.2.2.2

/-- Claim C17: the forward removal scans of `update` neither skip nor
double-visit an element: the bullet loop returns the bullets advanced by
`bulletSpeed * dt` and filtered by `x ≤ canvas.width`, the enemy loop the
enemies moved by `-enemySpeed * dt`, sprite advanced once, and filtered by
`x + width ≥ 0`, both in the original order. -/
theorem update_scans_refine (dt : ℚ) :
    (∀ bs : List Bullet,
      updateBullets dt (bs.length + 1) 0 bs
        = .ok ((bs.map fun b => { b with pos := (b.pos.1 + 500 * dt, b.pos.2) }).filter
            fun b => decide (b.pos.1 ≤ 512))) ∧
    (∀ es : List Enemy,
      updateEnemies dt (es.length + 1) 0 es
        = .ok ((es.map fun e =>
            { e with pos := (e.pos.1 - 100 * dt, e.pos.2), sprite := e.sprite.update dt }).filter
            fun e => decide (0 ≤ e.pos.1 + e.sprite.size.1))) ∧
    (∀ bs : List Bullet, updateBullets dt (bs.length + 1) 0 bs = .ok (advanceBullets dt bs)) ∧
    (∀ es : List Enemy, updateEnemies dt (es.length + 1) 0 es = .ok (advanceEnemies dt es)) :=
  ⟨updateBullets_run dt, updateEnemies_run dt, updateBullets_run dt, updateEnemies_run dt⟩

theorem beforeCollisions_withFlag (env : Env) (dt : ℚ) (st : GameState) (g : Bool)
    (hspace : env.isDown Key.SPACE = false) :
    beforeCollisions env dt (withFlag g st) = withFlag g (beforeCollisions env dt st) := by
  simp only [beforeCollisions, fire_idle _ _ hspace]
  rfl

/-- Claim C18: with SPACE not held, two states that differ only in
`isGameOver` give, after `update`, the same player, bullets, enemies,
explosions, `gameTime` and `lastFire` (and the step completes for one exactly
when it completes for the other). -/
theorem update_flag_independent (env : Env) (dt : ℚ) (st st1 : GameState) (g : Bool)
    (hspace : env.isDown Key.SPACE = false) (h : update env dt st = .ok st1) :
    ∃ st2, update env dt { st with isGameOver := g } = .ok st2 ∧
      st2.player = st1.player ∧ st2.bullets = st1.bullets ∧ st2.enemies = st1.enemies ∧
      st2.explosions = st1.explosions ∧ st2.gameTime = st1.gameTime ∧
      st2.lastFire = st1.lastFire := by
  have hmid := beforeCollisions_withFlag env dt st g hspace
  have hrun : update env dt (withFlag g st)
      = checkCollisions (withFlag g (beforeCollisions env dt st)) := by
    rw [update_eq_checkCollisions, hmid]
  rw [update_eq_checkCollisions] at h
  have hflag := collideEnemies_withFlag
    ((beforeCollisions env dt st).enemies.length
      + 2 * (beforeCollisions env dt st).bullets.length + 1) 0 (beforeCollisions env dt st) g
  change (checkCollisions (withFlag g (beforeCollisions env dt st))).map (withFlag false)
    = (checkCollisions (beforeCollisions env dt st)).map (withFlag false) at hflag
  rw [h] at hflag
  cases hres : checkCollisions (withFlag g (beforeCollisions env dt st)) with
  | ok st2 =>
    rw [hres] at hflag
    simp only [Outcome.map, Outcome.ok.injEq] at hflag
    have f1 : (withFlag false st2).player = (withFlag false st1).player := by rw [hflag]
    have f2 : (withFlag false st2).bullets = (withFlag false st1).bullets := by rw [hflag]
    have f3 : (withFlag false st2).enemies = (withFlag false st1).enemies := by rw [hflag]
    have f4 : (withFlag false st2).explosions = (withFlag false st1).explosions := by
      rw [hflag]
    have f5 : (withFlag false st2).gameTime = (withFlag false st1).gameTime := by rw [hflag]
    have f6 : (withFlag false st2).lastFire = (withFlag false st1).lastFire := by rw [hflag]
    exact ⟨st2, hrun.trans hres, f1, f2, f3, f4, f5, f6⟩
  | typeError =>
    rw [hres] at hflag
    cases hflag
  | fuelOut =>
    rw [hres] at hflag
    cases hflag

/-- Claim C19: after a completed `update`, every remaining bullet has
`x ≤ canvas.width` and every remaining enemy, a newly spawned one included,
has `x + sprite width ≥ 0`. -/
theorem update_survivors_in_bounds (env : Env) (dt : ℚ) (st st1 : GameState)
    (h : update env dt st = .ok st1) :
    (∀ b ∈ st1.bullets, b.pos.1 ≤ canvasWidth) ∧
    (∀ e ∈ st1.enemies, 0 ≤ e.pos.1 + e.sprite.size.1) := by
  obtain ⟨-, -, -, hb, he⟩ := update_fields env dt st st1 h
  constructor
  · intro b hmem
    have h1 := hb.subset hmem
    simp only [beforeCollisions, advanceBullets, List.mem_filter, decide_eq_true_eq] at h1
    exact h1.2
  · intro e hmem
    have h1 := he.subset hmem
    rw [beforeCollisions_enemies] at h1
    unfold spawn at h1
    split at h1
    · rw [List.mem_append, List.mem_singleton] at h1
      rcases h1 with h1 | h1
      · simp only [advanceEnemies, List.mem_filter, decide_eq_true_eq] at h1
        exact h1.2
      · rw [h1]
        norm_num [canvasWidth, enemySprite, Sprite.new]
    · simp only [advanceEnemies, List.mem_filter, decide_eq_true_eq] at h1
      exact h1.2

/-- Claim C20: when `update` fires, the bullet is created at the centre of the
player's 39x39 sprite frame, `(px + 39/2, py + 39/2)`, with `(px, py)` the
player position after the direction keys and before the bounds check; the
bullet scan of the same step then advances it by `500 * dt`, so the bullets
handed to `checkCollisions`, of which the final bullets are a sub-list, end
with it at `(px + 39/2 + 500 * dt, py + 39/2)` if that is still inside the
canvas width. -/
theorem update_fired_bullet (env : Env) (dt : ℚ) (st : GameState)
    (hspace : env.isDown Key.SPACE = true) (hplay : st.isGameOver = false)
    (hrate : env.now1 - st.lastFire > 100) (hsize : st.player.sprite.size = (39, 39)) :
    (fire env
      { st with
        gameTime := st.gameTime + dt
        player := { st.player with pos := movePlayer env dt st.player.pos } }).bullets
      = st.bullets ++
          [{ pos := ((movePlayer env dt st.player.pos).1 + 39 / 2,
                     (movePlayer env dt st.player.pos).2 + 39 / 2) }] ∧
    (beforeCollisions env dt st).bullets
      = advanceBullets dt st.bullets ++
          (if (movePlayer env dt st.player.pos).1 + 39 / 2 + 500 * dt ≤ 512 then
            [{ pos := ((movePlayer env dt st.player.pos).1 + 39 / 2 + 500 * dt,
                       (movePlayer env dt st.player.pos).2 + 39 / 2) }]
          else []) ∧
    (∀ st1, update env dt st = .ok st1 →
      st1.bullets.Sublist
        (advanceBullets dt st.bullets ++
          (if (movePlayer env dt st.player.pos).1 + 39 / 2 + 500 * dt ≤ 512 then
            [{ pos := ((movePlayer env dt st.player.pos).1 + 39 / 2 + 500 * dt,
                       (movePlayer env dt st.player.pos).2 + 39 / 2) }]
          else []))) := by
  have hfire : (fire env
      { st with
        gameTime := st.gameTime + dt
        player := { st.player with pos := movePlayer env dt st.player.pos } }).bullets
      = st.bullets ++
          [{ pos := ((movePlayer env dt st.player.pos).1 + 39 / 2,
                     (movePlayer env dt st.player.pos).2 + 39 / 2) }] := by
    unfold fire
    simp [hspace, hplay, hrate, hsize]
  have hmid : (beforeCollisions env dt st).bullets
      = advanceBullets dt st.bullets ++
          (if (movePlayer env dt st.player.pos).1 + 39 / 2 + 500 * dt ≤ 512 then
            [{ pos := ((movePlayer env dt st.player.pos).1 + 39 / 2 + 500 * dt,
                       (movePlayer env dt st.player.pos).2 + 39 / 2) }]
          else []) := by
    simp only [beforeCollisions]
    rw [hfire]
    simp only [advanceBullets, List.map_append, List.filter_append, List.map_cons, List.map_nil,
      List.filter_cons, List.filter_nil, bulletSpeed, canvasWidth, decide_eq_true_eq]
  refine ⟨hfire, hmid, ?_⟩
  intro st1 h
  rw [← hmid]
  exact (update_fields env dt st st1 h).2.2.2.1

/-! ## Concrete instances for firing, lifecycle, spawner and scans -/

/-- Claim C11 as stated fails: with SPACE held, the game not over and exactly
100 ms since the last shot (`now - lastFire = 100 ≥ 100`), `update` fires no
bullet and leaves `lastFire` at `0`. -/
theorem update_no_fire_at_100ms :
    (spaceEnv 100).isDown Key.SPACE = true ∧ (mkState 50 240 [] []).isGameOver = false ∧
    (spaceEnv 100).now1 - (mkState 50 240 [] []).lastFire ≥ 100 ∧
    update (spaceEnv 100) 0 (mkState 50 240 [] []) = .ok (mkState 50 240 [] []) := by
  with_unfolding_all decide

/-- Instance of C11 as amended: 101 ms after the last shot the bullet is
fired. -/
theorem fire_rate_limit_witness :
    fire (spaceEnv 101) (mkState 50 240 [] []) =
      { mkState 50 240 [] [] with
        bullets := (mkState 50 240 [] []).bullets ++
          [{ pos := ((mkState 50 240 [] []).player.pos.1
                        + (mkState 50 240 [] []).player.sprite.size.1 / 2,
                     (mkState 50 240 [] []).player.pos.2
                        + (mkState 50 240 [] []).player.sprite.size.2 / 2) }]
        lastFire := (spaceEnv 101).now2 } :=
  (fire_rate_limit (spaceEnv 101) (mkState 50 240 [] [])).1
    ⟨by decide, rfl, by decide⟩

/-- Instance of C14: a game-over state on which `update` completes. -/
theorem gameOver_absorbing_witness :
    update idleEnv 0 { mkState 50 240 [] [] with isGameOver := true }
      = .ok { mkState 50 240 [] [] with isGameOver := true } ∧
    ({ mkState 50 240 [] [] with isGameOver := true } : GameState).isGameOver = true :=
  have hrun : update idleEnv 0 { mkState 50 240 [] [] with isGameOver := true }
      = .ok { mkState 50 240 [] [] with isGameOver := true } := by
    with_unfolding_all decide
  ⟨hrun, (gameOver_absorbing idleEnv 0 { mkState 50 240 [] [] with isGameOver := true }
    { mkState 50 240 [] [] with isGameOver := true } rfl).1 hrun⟩

/-- Instance of C15: `reset()` followed by two updates with `dt = 1/2` and
`dt = 1/4`. -/
theorem gameTime_cumulative_witness :
    runUpdates [(idleEnv, 1 / 2), (idleEnv, 1 / 4)]
        (reset (mkState 400 400 [bulletAt 1 1] [enemyAt 2 2]))
      = .ok { player := { playerAt 50 240 with sprite := { playerSprite with index := 12 } },
              bullets := [], enemies := [], explosions := [], lastFire := 0,
              gameTime := 3 / 4, isGameOver := false } ∧
    ({ player := { playerAt 50 240 with sprite := { playerSprite with index := 12 } },
       bullets := [], enemies := [], explosions := [], lastFire := 0,
       gameTime := 3 / 4, isGameOver := false } : GameState).gameTime
      = (List.map Prod.snd [(idleEnv, (1 / 2 : ℚ)), (idleEnv, (1 / 4 : ℚ))]).sum :=
  have hrun : runUpdates [(idleEnv, 1 / 2), (idleEnv, 1 / 4)]
        (reset (mkState 400 400 [bulletAt 1 1] [enemyAt 2 2]))
      = .ok { player := { playerAt 50 240 with sprite := { playerSprite with index := 12 } },
              bullets := [], enemies := [], explosions := [], lastFire := 0,
              gameTime := 3 / 4, isGameOver := false } := by
    with_unfolding_all decide
  ⟨hrun, gameTime_cumulative.1 _ _ _ hrun⟩

/-- Instance of C16: at `gameTime = 0` no enemy is created. -/
theorem update_spawn_rule_witness :
    1 - idleEnv.pow (993 / 1000) ((mkState 50 240 [] [enemyAt 300 300]).gameTime + 0) = 0 ∧
    (beforeCollisions idleEnv 0 (mkState 50 240 [] [enemyAt 300 300])).enemies
      = advanceEnemies 0 (mkState 50 240 [] [enemyAt 300 300]).enemies ∧
    ∀ st1, update idleEnv 0 (mkState 50 240 [] [enemyAt 300 300]) = .ok st1 →
      st1.enemies.Sublist (advanceEnemies 0 (mkState 50 240 [] [enemyAt 300 300]).enemies) :=
  (update_spawn_rule idleEnv 0 (mkState 50 240 [] [enemyAt 300 300])).2.2
    (by with_unfolding_all decide) (by with_unfolding_all decide) (by with_unfolding_all decide)

/-- Instance of C18: the same step from a playing and from a game-over
state. -/
theorem update_flag_independent_witness :
    ∃ st2, update idleEnv 0 { mkState 50 240 [] [enemyAt 300 300] with isGameOver := true }
        = .ok st2 ∧
      st2.player = (mkState 50 240 [] [enemyAt 300 300]).player ∧
      st2.bullets = (mkState 50 240 [] [enemyAt 300 300]).bullets ∧
      st2.enemies = (mkState 50 240 [] [enemyAt 300 300]).enemies ∧
      st2.explosions = (mkState 50 240 [] [enemyAt 300 300]).explosions ∧
      st2.gameTime = (mkState 50 240 [] [enemyAt 300 300]).gameTime ∧
      st2.lastFire = (mkState 50 240 [] [enemyAt 300 300]).lastFire :=
  update_flag_independent idleEnv 0 (mkState 50 240 [] [enemyAt 300 300])
    (mkState 50 240 [] [enemyAt 300 300]) true rfl (by with_unfolding_all decide)

/-- Instance of C19: a bullet beyond the right edge and an enemy beyond the
left edge are gone after the step. -/
theorem update_survivors_in_bounds_witness :
    update idleEnv 0
        (mkState 50 240 [bulletAt 600 10, bulletAt 100 10] [enemyAt (-100) 5, enemyAt 300 300])
      = .ok (mkState 50 240 [bulletAt 100 10] [enemyAt 300 300]) ∧
    ((∀ b ∈ (mkState 50 240 [bulletAt 100 10] [enemyAt 300 300]).bullets,
        b.pos.1 ≤ canvasWidth) ∧
     (∀ e ∈ (mkState 50 240 [bulletAt 100 10] [enemyAt 300 300]).enemies,
        0 ≤ e.pos.1 + e.sprite.size.1)) :=
  have hrun : update idleEnv 0
        (mkState 50 240 [bulletAt 600 10, bulletAt 100 10] [enemyAt (-100) 5, enemyAt 300 300])
      = .ok (mkState 50 240 [bulletAt 100 10] [enemyAt 300 300]) := by
    with_unfolding_all decide
  ⟨hrun, update_survivors_in_bounds idleEnv 0 _ _ hrun⟩

/-- Instance of C20: a shot from (50, 240) with `dt = 1/10`; the bullet is
created at (69.5, 259.5) and handed on at (119.5, 259.5). -/
theorem update_fired_bullet_witness :
    (beforeCollisions (spaceEnv 101) (1 / 10) (mkState 50 240 [] [])).bullets
      = advanceBullets (1 / 10) (mkState 50 240 [] []).bullets ++
          (if (movePlayer (spaceEnv 101) (1 / 10) (mkState 50 240 [] []).player.pos).1
                + 39 / 2 + 500 * (1 / 10) ≤ 512 then
            [{ pos := ((movePlayer (spaceEnv 101) (1 / 10)
                          (mkState 50 240 [] []).player.pos).1 + 39 / 2 + 500 * (1 / 10),
                       (movePlayer (spaceEnv 101) (1 / 10)
                          (mkState 50 240 [] []).player.pos).2 + 39 / 2) }]
          else []) :=
  (update_fired_bullet (spaceEnv 101) (1 / 10) (mkState 50 240 [] [])
    (by decide) rfl (by decide) rfl).2.1

end CanvasGame
